import Mathlib

/-!
# Verification of the GOV.UK Frontend Accordion / I18n core

Shallow embedding of the accordion component's state machine and the I18n
pluralisation / placeholder engine from
`dist/govuk/components/accordion/accordion.bundle.js`, together with proofs
of the behavioural properties stated in the specification.

Conventions of the embedding:
* JavaScript numbers are modelled by `JsNum` (NaN, ±Infinity, or a finite
  rational); `Math.floor` on a finite value is floor division of the
  numerator by the denominator.
* JavaScript exceptions are modelled by `Except String` for the pure I18n
  engine, and by `JsResult` (which keeps the state mutated so far, as DOM
  mutation survives a thrown exception) for the accordion operations.
* Translation tables and the session store are association lists keyed by
  strings; the JavaScript `in` / `hasOwnProperty` checks become `lookup`
  `isSome` checks.
-/

/-- Plural rule category mnemonic tags (`PluralRule` in the source). -/
inductive PluralCategory where
  | zero
  | one
  | two
  | few
  | many
  | other
deriving DecidableEq

/-- The suffix string appended to a lookup key for a plural category. -/
def catSuffix : PluralCategory → String
  | .zero => "zero"
  | .one => "one"
  | .two => "two"
  | .few => "few"
  | .many => "many"
  | .other => "other"

/-- A JavaScript number: NaN, an infinity, or a finite value (modelled as a
rational, which is exact for every count the component ever receives). -/
inductive JsNum where
  | nan
  | inf
  | negInf
  | fin (q : ℚ)
deriving DecidableEq

/-- `isFinite` from JavaScript: true exactly on finite numbers. -/
def JsNum.isFinite : JsNum → Bool
  | .fin _ => true
  | _ => false

/-- `Math.abs(Math.floor(count))` for a finite count (the fallback plural
rules are only reached for finite counts; other inputs give `0`). -/
def JsNum.absFloor : JsNum → Nat
  | .fin q => (Int.fdiv q.num (q.den : Int)).natAbs
  | _ => 0

/-- `I18n.pluralRules.arabic` from the source. -/
def pluralRuleArabic (n : Nat) : PluralCategory :=
  if n = 0 then .zero
  else if n = 1 then .one
  else if n = 2 then .two
  else if 3 ≤ n % 100 ∧ n % 100 ≤ 10 then .few
  else if 11 ≤ n % 100 ∧ n % 100 ≤ 99 then .many
  else .other

/-- `I18n.pluralRules.chinese` from the source. -/
def pluralRuleChinese (_ : Nat) : PluralCategory := .other

/-- `I18n.pluralRules.french` from the source. -/
def pluralRuleFrench (n : Nat) : PluralCategory :=
  if n = 0 ∨ n = 1 then .one else .other

/-- `I18n.pluralRules.german` from the source. -/
def pluralRuleGerman (n : Nat) : PluralCategory :=
  if n = 1 then .one else .other

/-- `I18n.pluralRules.irish` from the source. -/
def pluralRuleIrish (n : Nat) : PluralCategory :=
  if n = 1 then .one
  else if n = 2 then .two
  else if 3 ≤ n ∧ n ≤ 6 then .few
  else if 7 ≤ n ∧ n ≤ 10 then .many
  else .other

/-- `I18n.pluralRules.russian` from the source (`lastTwo = n % 100`,
`last = lastTwo % 10` are inlined). -/
def pluralRuleRussian (n : Nat) : PluralCategory :=
  if n % 100 % 10 = 1 ∧ n % 100 ≠ 11 then .one
  else if (2 ≤ n % 100 % 10 ∧ n % 100 % 10 ≤ 4) ∧ ¬(12 ≤ n % 100 ∧ n % 100 ≤ 14) then .few
  else if n % 100 % 10 = 0 ∨ (5 ≤ n % 100 % 10 ∧ n % 100 % 10 ≤ 9) ∨ (11 ≤ n % 100 ∧ n % 100 ≤ 14) then .many
  else .other

/-- `I18n.pluralRules.scottish` from the source. -/
def pluralRuleScottish (n : Nat) : PluralCategory :=
  if n = 1 ∨ n = 11 then .one
  else if n = 2 ∨ n = 12 then .two
  else if (3 ≤ n ∧ n ≤ 10) ∨ (13 ≤ n ∧ n ≤ 19) then .few
  else .other

/-- `I18n.pluralRules.spanish` from the source. -/
def pluralRuleSpanish (n : Nat) : PluralCategory :=
  if n = 1 then .one
  else if n % 1000000 = 0 ∧ n ≠ 0 then .many
  else .other

/-- `I18n.pluralRules.welsh` from the source. -/
def pluralRuleWelsh (n : Nat) : PluralCategory :=
  if n = 0 then .zero
  else if n = 1 then .one
  else if n = 2 then .two
  else if n = 3 then .few
  else if n = 6 then .many
  else .other

/-- `I18n.pluralRulesMap` from the source: plural rule families keyed to the
languages they apply to, in source order. -/
def I18n.pluralRulesMap : List (String × List String) :=
  [("arabic", ["ar"]),
   ("chinese", ["my", "zh", "id", "ja", "jv", "ko", "ms", "th", "vi"]),
   ("french", ["hy", "bn", "fr", "gu", "hi", "fa", "pa", "zu"]),
   ("german", ["af", "sq", "az", "eu", "bg", "ca", "da", "nl", "en", "et", "fi", "ka", "de", "el", "hu", "lb", "no", "so", "sw", "sv", "ta", "te", "tr", "ur"]),
   ("irish", ["ga"]),
   ("russian", ["ru", "uk"]),
   ("scottish", ["gd"]),
   ("spanish", ["pt-PT", "it", "es"]),
   ("welsh", ["cy"])]

/-- `I18n.pluralRules` as a dispatch on the rule family name. -/
def I18n.pluralRules (ruleset : String) (n : Nat) : PluralCategory :=
  if ruleset = "arabic" then pluralRuleArabic n
  else if ruleset = "chinese" then pluralRuleChinese n
  else if ruleset = "french" then pluralRuleFrench n
  else if ruleset = "german" then pluralRuleGerman n
  else if ruleset = "irish" then pluralRuleIrish n
  else if ruleset = "russian" then pluralRuleRussian n
  else if ruleset = "scottish" then pluralRuleScottish n
  else if ruleset = "spanish" then pluralRuleSpanish n
  else if ruleset = "welsh" then pluralRuleWelsh n
  else .other

/-- `locale.split('-')[0]`: the characters before the first hyphen. -/
def localeShortOf (locale : String) : String :=
  String.mk (locale.toList.takeWhile (fun c => c ≠ '-'))

/-- `I18n.prototype.getPluralRulesForLocale`: the first rule family whose
language list contains the locale or its shortened (pre-hyphen) form. -/
def I18n.getPluralRulesForLocale (locale : String) : Option String :=
  let localeShort := localeShortOf locale
  (I18n.pluralRulesMap.find? (fun p => p.2.any (fun lang => lang == locale || lang == localeShort))).map (fun p => p.1)

/-- `I18n.prototype.selectPluralFormUsingFallbackRules` from the source. -/
def I18n.selectPluralFormUsingFallbackRules (locale : String) (count : JsNum) : PluralCategory :=
  let n := count.absFloor
  match I18n.getPluralRulesForLocale locale with
  | some r => I18n.pluralRules r n
  | none => .other

/-- The browser environment an `I18n` instance runs in: whether
`Intl.PluralRules` and `Intl.NumberFormat` support the instance's locale
(each modelled, when available, by the abstract function the browser would
supply). -/
structure I18nEnv where
  pluralSelect : Option (JsNum → PluralCategory)
  numFormat : Option (JsNum → String)

/-- The preferred plural form for a finite count: `Intl.PluralRules` when
supported, else the built-in fallback rules (source lines picking
`preferredForm`). -/
def I18n.preferredForm (locale : String) (env : I18nEnv) (count : JsNum) : PluralCategory :=
  match env.pluralSelect with
  | some sel => sel count
  | none => I18n.selectPluralFormUsingFallbackRules locale count

/-- `I18n.prototype.getPluralSuffix`: non-finite counts short-circuit to
`other`; otherwise the preferred form is used when the translations contain
it, falling back to `other` when present, and erroring when not. -/
def I18n.getPluralSuffix (tr : List (String × String)) (locale : String) (env : I18nEnv) (lookupKey : String) (count : JsNum) : Except String PluralCategory :=
  if count.isFinite = false then .ok .other
  else
    let preferredForm := I18n.preferredForm locale env count
    if (tr.lookup (lookupKey ++ "." ++ catSuffix preferredForm)).isSome then .ok preferredForm
    else if (tr.lookup (lookupKey ++ ".other")).isSome then .ok .other
    else .error ("i18n: Plural form \".other\" is required for \"" ++ locale ++ "\" locale")

deriving instance DecidableEq for Except

/-- A JavaScript value passed in a `t()` options object. -/
inductive JsValue where
  | str (s : String)
  | num (n : JsNum)
  | bool (b : Bool)
  | undefined
  | nullV
deriving DecidableEq

/-- `${value}` string coercion of a number (only the integral case is ever
exercised by the component; non-integral rationals are rendered as a
fraction, a deliberate simplification as no claim depends on it). -/
def jsNumToString : JsNum → String
  | .nan => "NaN"
  | .inf => "Infinity"
  | .negInf => "-Infinity"
  | .fin q => if q.den = 1 then toString q.num else toString q.num ++ "/" ++ toString q.den

/-- The replacement value for one placeholder (the callback body in
`replacePlaceholders`): `false` and non-number/non-string values render as
the empty string, numbers via the locale formatter when available, strings
as themselves. -/
def renderValue (numFmt : Option (JsNum → String)) : JsValue → String
  | .str s => s
  | .num n =>
    match numFmt with
    | some f => f n
    | none => jsNumToString n
  | _ => ""

/-- Index of the last `\x7d` character in a list, if any. -/
def lastBraceIdx : List Char → Option Nat
  | [] => none
  | c :: rest =>
    match lastBraceIdx rest with
    | some i => some (i + 1)
    | none => if c = '}' then some 0 else none

/-- Attempt to match the group `(.\S+)` followed by `\x7d` of the
placeholder regex `%\x7b(.\S+)\x7d` at the start of the input (the input is
what follows `%\x7b`). Greedy `\S+` with backtracking means the group runs
to the last `\x7d` inside the maximal non-whitespace run. Returns the
captured key and how many characters were consumed (group plus closing
brace). -/
def parseGroup : List Char → Option (String × Nat)
  | [] => none
  | c :: rest2 =>
    if c = '\n' ∨ c = '\r' then none
    else
      let run := rest2.takeWhile (fun ch => !ch.isWhitespace)
      match lastBraceIdx run with
      | some i => if 1 ≤ i then some (String.mk (c :: run.take i), i + 2) else none
      | none => none

/-- Whether `translationString.match(%\x7b(.\S+)\x7d)` finds a placeholder:
scan left to right; at a `%` directly followed by an opening brace, try the
group; on failure the regex engine advances one position and rescans. -/
def containsPHList : List Char → Bool
  | [] => false
  | c :: rest =>
    if c = '%' ∧ rest.head? = some '{' then
      (parseGroup rest.tail).isSome || containsPHList rest
    else containsPHList rest

/-- Fuel-driven scanner collecting the placeholder keys of a string in the
order the global regex replace visits them (continuing after each complete
match). The fuel bounds the number of scanning steps; each step consumes at
least one character, so fuel equal to the length is always enough (the
out-of-fuel branch is unreachable then). -/
def phKeysFuel : Nat → List Char → List String
  | _, [] => []
  | 0, _ :: _ => []
  | fuel + 1, c :: rest =>
    if c = '%' ∧ rest.head? = some '{' then
      match parseGroup rest.tail with
      | some (key, n) => key :: phKeysFuel fuel (rest.tail.drop n)
      | none => phKeysFuel fuel rest
    else phKeysFuel fuel rest

/-- The placeholder keys of a string. -/
def phKeysList (l : List Char) : List String :=
  phKeysFuel l.length l

/-- `translationString.replace(%\x7b(.\S+)\x7d/g, fn)` where `fn` substitutes
`options[placeholderKey]` (rendered by `renderValue`) and throws when the
key is absent from the options. -/
def replacePHFuel (numFmt : Option (JsNum → String)) (opts : List (String × JsValue)) : Nat → List Char → Except String String
  | _, [] => .ok ""
  | 0, _ :: _ => .ok ""
  | fuel + 1, c :: rest =>
    if c = '%' ∧ rest.head? = some '{' then
      match parseGroup rest.tail with
      | some (key, n) =>
        match opts.lookup key with
        | some v =>
          match replacePHFuel numFmt opts fuel (rest.tail.drop n) with
          | .ok t => .ok (renderValue numFmt v ++ t)
          | .error e => .error e
        | none => .error ("i18n: no data found to replace %\x7b" ++ key ++ "\x7d placeholder in string")
      | none =>
        match replacePHFuel numFmt opts fuel rest with
        | .ok t => .ok (String.singleton c ++ t)
        | .error e => .error e
    else
      match replacePHFuel numFmt opts fuel rest with
      | .ok t => .ok (String.singleton c ++ t)
      | .error e => .error e

/-- `translationString.replace(...)` over a character list, with fuel equal
to the list length (each scanning step consumes at least one character, so
the fuel never runs out). -/
def replacePHList (numFmt : Option (JsNum → String)) (opts : List (String × JsValue)) (l : List Char) : Except String String :=
  replacePHFuel numFmt opts l.length l

/-- `I18n.prototype.replacePlaceholders`. -/
def I18n.replacePlaceholders (env : I18nEnv) (translationString : String) (opts : List (String × JsValue)) : Except String String :=
  replacePHList env.numFormat opts translationString.toList

/-- `I18n.prototype.t`: key validation, plural suffix resolution when a
numeric `count` option is present, lookup with the key itself as fallback,
and placeholder substitution. -/
def I18n.t (tr : List (String × String)) (locale : String) (env : I18nEnv) (lookupKey : String) (options : Option (List (String × JsValue))) : Except String String :=
  if lookupKey = "" then .error "i18n: lookup key missing"
  else
    let keyE : Except String String :=
      match options with
      | some opts =>
        match opts.lookup "count" with
        | some (.num n) =>
          match I18n.getPluralSuffix tr locale env lookupKey n with
          | .ok suf => .ok (lookupKey ++ "." ++ catSuffix suf)
          | .error e => .error e
        | _ => .ok lookupKey
      | none => .ok lookupKey
    match keyE with
    | .error e => .error e
    | .ok key =>
      match tr.lookup key with
      | some s =>
        if containsPHList s.toList then
          match options with
          | none => .error "i18n: cannot replace placeholders in string if no option data provided"
          | some opts => I18n.replacePlaceholders env s opts
        else .ok s
      | none => .ok key

/-- `String.prototype.trim`: strip whitespace from both ends (list-based so
that it evaluates by kernel reduction). -/
def jsTrim (s : String) : String :=
  String.mk (((s.data.dropWhile Char.isWhitespace).reverse.dropWhile Char.isWhitespace).reverse)

/-! ## Accordion state machine -/

/-- One accordion section: presence flags for the sub-elements the component
queries, plus the DOM attributes/classes it mutates. `expandedClass` is the
`govuk-accordion__section--expanded` class, the source of truth the
component reads back via `isExpanded`. -/
structure Section where
  hasHeader : Bool
  hasButtonEl : Bool
  hasHeading : Bool
  hasIcon : Bool
  hasToggleText : Bool
  hasContent : Bool
  spanHTML : String
  headingTextEl : Option String
  summaryEl : Option String
  contentId : Option String
  ariaExpandedAttr : Option String
  ariaLabel : Option String
  toggleText : String
  expandedClass : Bool
  contentHidden : Bool
  downChevron : Bool
deriving DecidableEq

/-- The guard at the top of `Accordion.prototype.setExpanded`: the section's
chevron icon, show/hide text, button, and content wrapper must all exist,
else the call is a silent no-op. -/
def sectionGuard (s : Section) : Bool :=
  s.hasIcon && s.hasToggleText && s.hasButtonEl && s.hasContent

/-- Accordion instance state: the sections (document order), the stored
result of the session-storage probe, and the state of the "show all"
aggregate control. -/
structure AccState where
  sections : List Section
  browserSupportsSessionStorage : Bool
  showAllAriaExpanded : Bool
  showAllText : String
  showAllDownChevron : Bool
deriving DecidableEq

/-- The session store: its entries, plus whether `setItem` currently throws
(storage disabled or quota exceeded). -/
structure SessionStorage where
  entries : List (String × String)
  setThrows : Bool
deriving DecidableEq

/-- Accordion component state together with the browser's session store. -/
structure World where
  acc : AccState
  store : SessionStorage
deriving DecidableEq

/-- Outcome of a JavaScript operation over mutable state: normal completion
or a thrown exception. Mutations made before the throw survive, so the
thrown constructor carries the state as mutated so far. -/
inductive JsResult (σ : Type) where
  | ok (st : σ)
  | thrown (msg : String) (st : σ)
deriving DecidableEq

/-- Whether a result is a thrown exception. -/
def JsResult.isThrown {σ : Type} : JsResult σ → Bool
  | .ok _ => false
  | .thrown _ _ => true

/-- Resolved accordion configuration: the `i18n`-namespaced translation
slice and the `rememberExpanded` flag (config resolution itself is an
external collaborator per the specification). -/
structure AccordionConfig where
  translations : List (String × String)
  rememberExpanded : Bool

/-- `Accordion.defaults.i18n` from the source. -/
def Accordion.defaultI18n : List (String × String) :=
  [("hideAllSections", "Hide all sections"),
   ("hideSection", "Hide"),
   ("hideSectionAriaLabel", "Hide this section"),
   ("showAllSections", "Show all sections"),
   ("showSection", "Show"),
   ("showSectionAriaLabel", "Show this section")]

/-- `Accordion.defaults` from the source (`rememberExpanded: true`). -/
def Accordion.defaultConfig : AccordionConfig :=
  { translations := Accordion.defaultI18n, rememberExpanded := true }

/-- An accordion's `this.i18n.t(key)` call: options are never passed, so the
plural and number-format machinery is never consulted. -/
def accT (cfg : AccordionConfig) (key : String) : Except String String :=
  I18n.t cfg.translations "en" { pluralSelect := none, numFormat := none } key none

/-- Replace section `i` (the DOM node is mutated in place). -/
def AccState.setSection (st : AccState) (i : Nat) (s : Section) : AccState :=
  { st with sections := st.sections.set i s }

/-- `Accordion.prototype.checkIfAllSectionsOpen`: total section count equals
the count of sections carrying the expanded class. -/
def checkIfAllSectionsOpen (st : AccState) : Bool :=
  st.sections.length == (st.sections.filter (fun s => s.expandedClass)).length

/-- `Accordion.prototype.isExpanded`: reads the expanded class back from
the DOM. -/
def Accordion.isExpanded (st : AccState) (i : Nat) : Bool :=
  match st.sections[i]? with
  | some s => s.expandedClass
  | none => false

/-- `Accordion.prototype.updateShowAllButton`: fetches the new button text
(an I18n call that can throw before any mutation), then updates the
aggregate control's aria-expanded state, text and chevron. -/
def Accordion.updateShowAllButton (cfg : AccordionConfig) (expanded : Bool) (st : AccState) : JsResult AccState :=
  match accT cfg (if expanded then "hideAllSections" else "showAllSections") with
  | .error m => .thrown m st
  | .ok txt =>
    .ok { st with showAllAriaExpanded := expanded, showAllText := txt, showAllDownChevron := !expanded }

/-- `Accordion.prototype.setExpanded` on section `i`: no-op when a required
sub-element is missing; otherwise updates the toggle text and button
aria-expanded, rebuilds the aria-label (heading, optional summary, action
text joined with a spaced comma), toggles content visibility / the expanded
class / the chevron, then recomputes and displays the aggregate state. -/
def Accordion.setExpanded (cfg : AccordionConfig) (expanded : Bool) (i : Nat) (st : AccState) : JsResult AccState :=
  match st.sections[i]? with
  | none => .ok st
  | some s =>
    if sectionGuard s then
      match accT cfg (if expanded then "hideSection" else "showSection") with
      | .error m => .thrown m st
      | .ok btnText =>
        let s1 : Section :=
          { s with toggleText := btnText,
                   ariaExpandedAttr := some (if expanded then "true" else "false") }
        let st1 := st.setSection i s1
        match accT cfg (if expanded then "hideSectionAriaLabel" else "showSectionAriaLabel") with
        | .error m => .thrown m st1
        | .ok msg =>
          let parts : List String :=
            (match s1.headingTextEl with
             | some h => [jsTrim h]
             | none => []) ++
            (match s1.summaryEl with
             | some y => [jsTrim y]
             | none => []) ++ [msg]
          let s2 : Section :=
            { s1 with ariaLabel := some (String.intercalate " , " parts),
                      expandedClass := expanded,
                      contentHidden := !expanded,
                      downChevron := !expanded }
          let st2 := st1.setSection i s2
          Accordion.updateShowAllButton cfg (checkIfAllSectionsOpen st2) st2
    else .ok st

/-- Insert-or-replace for the session store's association list
(`sessionStorage.setItem` semantics). -/
def setEntry : List (String × String) → String → String → List (String × String)
  | [], k, v => [(k, v)]
  | (k', v') :: rest, k, v =>
    if k' = k then (k, v) :: rest else (k', v') :: setEntry rest k v

/-- `Accordion.prototype.storeState`: when the probe succeeded and
`rememberExpanded` is set, reads the button's `aria-controls` and
`aria-expanded` attributes and, when both are non-empty, writes them to the
session store. The write is NOT wrapped in try/catch in the source, so a
throwing `setItem` propagates. -/
def Accordion.storeState (cfg : AccordionConfig) (i : Nat) (w : World) : JsResult World :=
  if w.acc.browserSupportsSessionStorage && cfg.rememberExpanded then
    match w.acc.sections[i]? with
    | none => .ok w
    | some s =>
      if s.hasButtonEl then
        match s.contentId, s.ariaExpandedAttr with
        | some cid, some cstate =>
          if cid ≠ "" ∧ cstate ≠ "" then
            if w.store.setThrows then .thrown "QuotaExceededError" w
            else .ok { w with store := { w.store with entries := setEntry w.store.entries cid cstate } }
          else .ok w
        | _, _ => .ok w
      else .ok w
  else .ok w

/-- `Accordion.prototype.onSectionToggle`: flip the section, then persist. -/
def Accordion.onSectionToggle (cfg : AccordionConfig) (i : Nat) (w : World) : JsResult World :=
  let expanded := Accordion.isExpanded w.acc i
  match Accordion.setExpanded cfg (!expanded) i w.acc with
  | .thrown m a => .thrown m { w with acc := a }
  | .ok a1 => Accordion.storeState cfg i { w with acc := a1 }

/-- The per-section loop body sequencing of `onShowOrHideAllToggle`. -/
def Accordion.toggleAllLoop (cfg : AccordionConfig) (nowExpanded : Bool) : List Nat → World → JsResult World
  | [], w => .ok w
  | i :: rest, w =>
    match Accordion.setExpanded cfg nowExpanded i w.acc with
    | .thrown m a => .thrown m { w with acc := a }
    | .ok a1 =>
      match Accordion.storeState cfg i { w with acc := a1 } with
      | .thrown m w1 => .thrown m w1
      | .ok w1 => Accordion.toggleAllLoop cfg nowExpanded rest w1

/-- `Accordion.prototype.onShowOrHideAllToggle`: targets the negation of the
current derived state, applies it to every section (persisting each), then
sets the aggregate control to the precomputed target value. -/
def Accordion.onShowOrHideAllToggle (cfg : AccordionConfig) (w : World) : JsResult World :=
  let nowExpanded := !(checkIfAllSectionsOpen w.acc)
  match Accordion.toggleAllLoop cfg nowExpanded (List.range w.acc.sections.length) w with
  | .thrown m w' => .thrown m w'
  | .ok w' =>
    match Accordion.updateShowAllButton cfg nowExpanded w'.acc with
    | .thrown m a => .thrown m { w' with acc := a }
    | .ok a => .ok { w' with acc := a }

/-- `Accordion.prototype.onBeforeMatch`: the event target's closest section
(already resolved to an index here, `none` when the target is not inside a
section) is forced open; the session store is never touched. -/
def Accordion.onBeforeMatch (cfg : AccordionConfig) (target : Option Nat) (w : World) : JsResult World :=
  match target with
  | none => .ok w
  | some i =>
    match Accordion.setExpanded cfg true i w.acc with
    | .thrown m a => .thrown m { w with acc := a }
    | .ok a => .ok { w with acc := a }

/-- `Accordion.prototype.setInitialState`: when persistence is active, read
the stored value under the button's `aria-controls` id and, when present,
apply it via `setExpanded`. An absent value is a silent no-op. -/
def Accordion.setInitialState (cfg : AccordionConfig) (i : Nat) (w : World) : JsResult World :=
  if w.acc.browserSupportsSessionStorage && cfg.rememberExpanded then
    match w.acc.sections[i]? with
    | none => .ok w
    | some s =>
      if s.hasButtonEl then
        match (match s.contentId with
               | some cid => if cid ≠ "" then w.store.entries.lookup cid else none
               | none => none) with
        | some cstate =>
          match Accordion.setExpanded cfg (cstate = "true") i w.acc with
          | .thrown m a => .thrown m { w with acc := a }
          | .ok a => .ok { w with acc := a }
        | none => .ok w
      else .ok w
  else .ok w

/-- `Accordion.prototype.constructHeaderMarkup` for section `i`: requires
the button span and the heading; creates the chevron icon and show/hide
text elements, moves the heading text into a dedicated element, and gives
the new button `aria-controls` (the module id based default, unless the
span already carried the attribute, which is copied over it). -/
def Accordion.constructHeader (moduleId : String) (i : Nat) (s : Section) : Section :=
  if s.hasButtonEl && s.hasHeading then
    { s with hasIcon := true,
             hasToggleText := true,
             headingTextEl := some s.spanHTML,
             contentId := some (match s.contentId with
                                | some c => c
                                | none => moduleId ++ "-content-" ++ toString (i + 1)) }
  else s

/-- `helper.checkForSessionStorage`: the sentinel write/read/remove probe;
it reports false exactly when touching the store throws (the sentinel
round-trip otherwise succeeds and leaves the store unchanged). -/
def helper.checkForSessionStorage (store : SessionStorage) : Bool :=
  !store.setThrows

/-- One iteration of `initSectionHeaders`: skip the section when its header
is missing, else construct the header markup, apply `setExpanded` with the
section's current (markup) state, then attempt the stored-state restore. -/
def Accordion.initSectionStep (cfg : AccordionConfig) (moduleId : String) (i : Nat) (w : World) : JsResult World :=
  match w.acc.sections[i]? with
  | none => .ok w
  | some s =>
    if s.hasHeader then
      let s1 := Accordion.constructHeader moduleId i s
      let a1 := w.acc.setSection i s1
      match Accordion.setExpanded cfg s1.expandedClass i a1 with
      | .thrown m a => .thrown m { w with acc := a }
      | .ok a2 => Accordion.setInitialState cfg i { w with acc := a2 }
    else .ok w

/-- The `initSectionHeaders` loop over section indices. -/
def Accordion.initLoop (cfg : AccordionConfig) (moduleId : String) : List Nat → World → JsResult World
  | [], w => .ok w
  | i :: rest, w =>
    match Accordion.initSectionStep cfg moduleId i w with
    | .thrown m w' => .thrown m w'
    | .ok w' => Accordion.initLoop cfg moduleId rest w'

/-- The `Accordion` constructor over already-discovered section markup:
bail out inert when no sections are found; otherwise probe the session
store, build the controls (aggregate button starts unexpanded with empty
text), initialise every section header, and finally display the recomputed
aggregate state. -/
def Accordion.construct (markup : List Section) (moduleId : String) (cfg : AccordionConfig) (store : SessionStorage) : JsResult World :=
  if markup.isEmpty then
    .ok { acc := { sections := [],
                   browserSupportsSessionStorage := false,
                   showAllAriaExpanded := false,
                   showAllText := "",
                   showAllDownChevron := false },
          store := store }
  else
    let bs := helper.checkForSessionStorage store
    let a0 : AccState :=
      { sections := markup,
        browserSupportsSessionStorage := bs,
        showAllAriaExpanded := false,
        showAllText := "",
        showAllDownChevron := false }
    match Accordion.initLoop cfg moduleId (List.range markup.length) { acc := a0, store := store } with
    | .thrown m w => .thrown m w
    | .ok w1 =>
      match Accordion.updateShowAllButton cfg (checkIfAllSectionsOpen w1.acc) w1.acc with
      | .thrown m a => .thrown m { w1 with acc := a }
      | .ok a => .ok { w1 with acc := a }

/-! ## Glossary-side plural rule definitions (for the refinement claim C3) -/

/-- Modelled from the spec glossary: Arabic (0→zero, 1→one, 2→two,
n%100∈[3,10]→few, n%100∈[11,99]→many, else other). -/
def specGlossaryArabic (n : Nat) : PluralCategory :=
  if n = 0 then .zero
  else if n = 1 then .one
  else if n = 2 then .two
  else if 3 ≤ n % 100 ∧ n % 100 ≤ 10 then .few
  else if 11 ≤ n % 100 ∧ n % 100 ≤ 99 then .many
  else .other

/-- Modelled from the spec glossary: Chinese (always other). -/
def specGlossaryChinese (_ : Nat) : PluralCategory := .other

/-- Modelled from the spec glossary: French (n∈\x7b0,1\x7d→one, else other). -/
def specGlossaryFrench (n : Nat) : PluralCategory :=
  if n = 0 ∨ n = 1 then .one else .other

/-- Modelled from the spec glossary: German-like (n==1→one, else other). -/
def specGlossaryGerman (n : Nat) : PluralCategory :=
  if n = 1 then .one else .other

/-- Modelled from the spec glossary: Irish (1→one, 2→two, 3..6→few,
7..10→many, else other). -/
def specGlossaryIrish (n : Nat) : PluralCategory :=
  if n = 1 then .one
  else if n = 2 then .two
  else if 3 ≤ n ∧ n ≤ 6 then .few
  else if 7 ≤ n ∧ n ≤ 10 then .many
  else .other

/-- Modelled from the spec glossary: Russian (last digit 1 and last two
digits not 11→one; last digit 2-4 and last two not in 12-14→few; last digit
0 or 5-9 or last two in 11-14→many; else other), where "last digit" is
`n % 10` and "last two digits" is `n % 100`. -/
def specGlossaryRussian (n : Nat) : PluralCategory :=
  if n % 10 = 1 ∧ n % 100 ≠ 11 then .one
  else if (2 ≤ n % 10 ∧ n % 10 ≤ 4) ∧ ¬(12 ≤ n % 100 ∧ n % 100 ≤ 14) then .few
  else if n % 10 = 0 ∨ (5 ≤ n % 10 ∧ n % 10 ≤ 9) ∨ (11 ≤ n % 100 ∧ n % 100 ≤ 14) then .many
  else .other

/-- Modelled from the spec glossary: Scottish (1 or 11→one; 2 or 12→two;
3-10 or 13-19→few; else other). -/
def specGlossaryScottish (n : Nat) : PluralCategory :=
  if n = 1 ∨ n = 11 then .one
  else if n = 2 ∨ n = 12 then .two
  else if (3 ≤ n ∧ n ≤ 10) ∨ (13 ≤ n ∧ n ≤ 19) then .few
  else .other

/-- Modelled from the spec glossary: Spanish (1→one; nonzero multiple of
1,000,000→many; else other). -/
def specGlossarySpanish (n : Nat) : PluralCategory :=
  if n = 1 then .one
  else if 1000000 ∣ n ∧ n ≠ 0 then .many
  else .other

/-- Modelled from the spec glossary: Welsh (0→zero, 1→one, 2→two, 3→few,
6→many, else other). -/
def specGlossaryWelsh (n : Nat) : PluralCategory :=
  if n = 0 then .zero
  else if n = 1 then .one
  else if n = 2 then .two
  else if n = 3 then .few
  else if n = 6 then .many
  else .other

/-- C3: for every non-negative integer n (the `abs(floor(count))` the
fallback path feeds them), each built-in fallback plural rule function
returns exactly the category given by the Glossary's rule family. -/
theorem c3_fallback_rules_match_glossary : ∀ n : Nat,
    pluralRuleArabic n = specGlossaryArabic n ∧
    pluralRuleChinese n = specGlossaryChinese n ∧
    pluralRuleFrench n = specGlossaryFrench n ∧
    pluralRuleGerman n = specGlossaryGerman n ∧
    pluralRuleIrish n = specGlossaryIrish n ∧
    pluralRuleRussian n = specGlossaryRussian n ∧
    pluralRuleScottish n = specGlossaryScottish n ∧
    pluralRuleSpanish n = specGlossarySpanish n ∧
    pluralRuleWelsh n = specGlossaryWelsh n := by
  intro n
  have hmod : n % 100 % 10 = n % 10 := Nat.mod_mod_of_dvd n (by norm_num)
  refine ⟨rfl, rfl, rfl, rfl, rfl, ?_, rfl, ?_, rfl⟩
  · simp only [pluralRuleRussian, specGlossaryRussian, hmod]
  · simp only [pluralRuleSpanish, specGlossarySpanish, Nat.dvd_iff_mod_eq_zero]

/-- A browser environment without `Intl.PluralRules` / `Intl.NumberFormat`
support for the locale (the fallback paths are taken). -/
def noIntl : I18nEnv := { pluralSelect := none, numFormat := none }

/-- C9: a `t(key, ...)` call whose numeric `count` is not finite (NaN or an
infinity) makes `getPluralSuffix` return `other` immediately, without
checking that a `key.other` translation exists; `t` therefore never raises
the missing-`.other`-form error and returns the `key.other` text when
present, or the literal string `key.other` otherwise — even when the key
defines no `other` form at all. -/
theorem c9_nonfinite_count_short_circuits_to_other
    (tr : List (String × String)) (locale : String) (env : I18nEnv) (k : String)
    (opts : List (String × JsValue)) (n : JsNum)
    (hk : k ≠ "") (hc : opts.lookup "count" = some (.num n)) (hfin : n.isFinite = false) :
    I18n.getPluralSuffix tr locale env k n = .ok .other ∧
    (∀ v, tr.lookup (k ++ ".other") = some v → containsPHList v.toList = false →
      I18n.t tr locale env k (some opts) = .ok v) ∧
    (tr.lookup (k ++ ".other") = none → I18n.t tr locale env k (some opts) = .ok (k ++ ".other")) := by
  have hsuf : I18n.getPluralSuffix tr locale env k n = .ok .other := by
    simp [I18n.getPluralSuffix, hfin]
  have hcat : catSuffix PluralCategory.other = "other" := rfl
  have hdot : ("." ++ "other" : String) = ".other" := by decide
  have hkey : k ++ "." ++ catSuffix PluralCategory.other = k ++ ".other" := by
    rw [hcat, String.append_assoc, hdot]
  refine ⟨hsuf, ?_, ?_⟩
  · intro v hv hph
    have hph' : containsPHList v.data = false := hph
    simp [I18n.t, hk, hc, hsuf, hkey, hv, hph']
  · intro hnone
    simp [I18n.t, hk, hc, hsuf, hkey, hnone]

/-- Witness for C9 at a concrete input: translations defining only `k.one`,
count `NaN`. -/
theorem c9_witness :
    I18n.getPluralSuffix [("k.one", "a")] "en" noIntl "k" .nan = .ok .other ∧
    I18n.t [("k.one", "a")] "en" noIntl "k" (some [("count", .num .nan)]) = .ok "k.other" := by
  have h := c9_nonfinite_count_short_circuits_to_other [("k.one", "a")] "en" noIntl "k"
    [("count", .num .nan)] .nan (by decide) (by decide) (by decide)
  exact ⟨h.1, h.2.2 (by decide)⟩

/-- C2: with a finite count whose preferred plural category has no
translation entry, `getPluralSuffix` (and hence `t`) falls back to the
`other` form when `key.other` exists (recoverable, not an error), and
raises the missing-`.other` error when it does not. Concretely: with only
`key.one`, `t("key", count 5)` errors; with `key.one` and `key.other` in a
locale (Russian fallback) mapping 5 to `many`, it returns the `other`-form
text. -/
theorem c2_plural_fallback_and_missing_other
    (tr : List (String × String)) (locale : String) (env : I18nEnv) (k : String)
    (opts : List (String × JsValue)) (n : JsNum)
    (hk : k ≠ "") (hfin : n.isFinite = true) (hc : opts.lookup "count" = some (.num n))
    (hpref : tr.lookup (k ++ "." ++ catSuffix (I18n.preferredForm locale env n)) = none) :
    ((tr.lookup (k ++ ".other")).isSome = true →
      I18n.getPluralSuffix tr locale env k n = .ok .other) ∧
    (∀ v, tr.lookup (k ++ ".other") = some v → containsPHList v.toList = false →
      I18n.t tr locale env k (some opts) = .ok v) ∧
    (tr.lookup (k ++ ".other") = none →
      I18n.t tr locale env k (some opts) =
        .error ("i18n: Plural form \".other\" is required for \"" ++ locale ++ "\" locale")) ∧
    I18n.t [("key.one", "one form")] "en" noIntl "key"
      (some [("count", .num (.fin 5))]) =
      .error ("i18n: Plural form \".other\" is required for \"en\" locale") ∧
    I18n.t [("key.one", "one form"), ("key.other", "other form")] "ru" noIntl "key"
      (some [("count", .num (.fin 5))]) = .ok "other form" := by
  have hcat : catSuffix PluralCategory.other = "other" := rfl
  have hdot : ("." ++ "other" : String) = ".other" := by decide
  have hkey : k ++ "." ++ catSuffix PluralCategory.other = k ++ ".other" := by
    rw [hcat, String.append_assoc, hdot]
  refine ⟨?_, ?_, ?_, by decide, by decide⟩
  · intro hsome
    simp [I18n.getPluralSuffix, hfin, hpref, hsome]
  · intro v hv hph
    have hph' : containsPHList v.data = false := hph
    have hsuf : I18n.getPluralSuffix tr locale env k n = .ok .other := by
      simp [I18n.getPluralSuffix, hfin, hpref, hv]
    simp [I18n.t, hk, hc, hsuf, hkey, hv, hph']
  · intro hnone
    have hsuf : I18n.getPluralSuffix tr locale env k n =
        .error ("i18n: Plural form \".other\" is required for \"" ++ locale ++ "\" locale") := by
      simp [I18n.getPluralSuffix, hfin, hpref, hnone]
    simp [I18n.t, hk, hc, hsuf]

/-- Witness for C2 at a concrete input: Russian locale via the fallback
rules, count 5 (category `many`), translations with `key.one`/`key.other`. -/
theorem c2_witness :
    I18n.getPluralSuffix [("key.one", "x"), ("key.other", "y")] "ru" noIntl "key" (.fin 5) =
      .ok .other ∧
    I18n.t [("key.one", "x"), ("key.other", "y")] "ru" noIntl "key"
      (some [("count", .num (.fin 5))]) = .ok "y" := by
  have h := c2_plural_fallback_and_missing_other [("key.one", "x"), ("key.other", "y")] "ru"
    noIntl "key" [("count", .num (.fin 5))] (.fin 5) (by decide) (by decide) (by decide) (by decide)
  exact ⟨h.1 (by decide), h.2.1 "y" (by decide) (by decide)⟩

/-- A wrapped recursive replacement result is ok exactly when the inner one
is. -/
theorem isOk_match_wrap (r : Except String String) (f : String → String) :
    (match r with
     | .ok t => Except.ok (f t)
     | .error e => Except.error e).isOk = r.isOk := by
  cases r <;> rfl

/-- The placeholder replacement succeeds exactly when every placeholder key
occurring in the string is present in the options. -/
theorem replacePHFuel_isOk_iff (numFmt : Option (JsNum → String)) (opts : List (String × JsValue)) :
    ∀ (fuel : Nat) (l : List Char),
      (replacePHFuel numFmt opts fuel l).isOk = true ↔
        ∀ key ∈ phKeysFuel fuel l, (opts.lookup key).isSome = true := by
  intro fuel
  induction fuel with
  | zero =>
    intro l
    cases l <;> simp [replacePHFuel, phKeysFuel, Except.isOk, Except.toBool]
  | succ fuel ih =>
    intro l
    cases l with
    | nil => simp [replacePHFuel, phKeysFuel, Except.isOk, Except.toBool]
    | cons c rest =>
      by_cases hg : c = '%' ∧ rest.head? = some '{'
      · obtain ⟨hc1, hh⟩ := hg
        subst hc1
        rw [replacePHFuel, phKeysFuel, if_pos ⟨rfl, hh⟩, if_pos ⟨rfl, hh⟩]
        cases hp : parseGroup rest.tail with
        | none =>
          show (match replacePHFuel numFmt opts fuel rest with
                | .ok t => Except.ok (String.singleton '%' ++ t)
                | .error e => Except.error e).isOk = true ↔
            ∀ key ∈ phKeysFuel fuel rest, (opts.lookup key).isSome = true
          rw [isOk_match_wrap]
          exact ih rest
        | some kn =>
          rcases kn with ⟨key, n⟩
          show (match opts.lookup key with
                | some v =>
                  match replacePHFuel numFmt opts fuel (rest.tail.drop n) with
                  | .ok t => Except.ok (renderValue numFmt v ++ t)
                  | .error e => Except.error e
                | none => Except.error ("i18n: no data found to replace %\x7b" ++ key ++ "\x7d placeholder in string")).isOk = true ↔
            ∀ key2 ∈ key :: phKeysFuel fuel (rest.tail.drop n), (opts.lookup key2).isSome = true
          cases ho : opts.lookup key with
          | none =>
            constructor
            · intro h
              exact absurd h (by simp [Except.isOk, Except.toBool])
            · intro h
              have hmem := h key (List.mem_cons_self key _)
              rw [ho] at hmem
              exact absurd hmem (by simp)
          | some v =>
            show (match replacePHFuel numFmt opts fuel (rest.tail.drop n) with
                  | .ok t => Except.ok (renderValue numFmt v ++ t)
                  | .error e => Except.error e).isOk = true ↔
              ∀ key2 ∈ key :: phKeysFuel fuel (rest.tail.drop n), (opts.lookup key2).isSome = true
            rw [isOk_match_wrap, ih]
            constructor
            · intro h key2 hk2
              rcases List.mem_cons.mp hk2 with h1 | h2
              · rw [h1, ho]; rfl
              · exact h key2 h2
            · intro h key2 hk2
              exact h key2 (List.mem_cons_of_mem _ hk2)
      · rw [replacePHFuel, phKeysFuel, if_neg hg, if_neg hg]
        rw [isOk_match_wrap]
        exact ih rest

/-- `replacePlaceholders` succeeds iff every placeholder key is present in
the options. -/
theorem replacePlaceholders_isOk_iff (env : I18nEnv) (s : String) (opts : List (String × JsValue)) :
    (I18n.replacePlaceholders env s opts).isOk = true ↔
      ∀ key ∈ phKeysList s.toList, (opts.lookup key).isSome = true :=
  replacePHFuel_isOk_iff env.numFormat opts s.toList.length s.toList

/-- C4: placeholder substitution contract. A resolved translation string
containing `%\x7bname\x7d` markers: with no options object `t` errors; a
marker whose key is absent from the options makes the replacement error;
values render per the source's rules (`false` and non-number/non-string
values become the empty string, strings pass through, numbers go through
the locale formatter when available, else plain coercion). Concretely,
`t("greeting", name "Amara")` gives "Hello, Amara!" and `name false` gives
"Hello, !". -/
theorem c4_placeholder_substitution :
    (∀ (tr : List (String × String)) (locale : String) (env : I18nEnv) (k s : String),
      k ≠ "" → tr.lookup k = some s → containsPHList s.toList = true →
      I18n.t tr locale env k none =
        .error "i18n: cannot replace placeholders in string if no option data provided") ∧
    (∀ (env : I18nEnv) (s : String) (opts : List (String × JsValue)) (key : String),
      key ∈ phKeysList s.toList → opts.lookup key = none →
      (I18n.replacePlaceholders env s opts).isOk = false) ∧
    (∀ (env : I18nEnv) (s : String) (opts : List (String × JsValue)),
      (∀ key ∈ phKeysList s.toList, (opts.lookup key).isSome = true) →
      (I18n.replacePlaceholders env s opts).isOk = true) ∧
    (∀ (numFmt : Option (JsNum → String)) (b : Bool), renderValue numFmt (.bool b) = "") ∧
    (∀ numFmt : Option (JsNum → String),
      renderValue numFmt .undefined = "" ∧ renderValue numFmt .nullV = "") ∧
    (∀ (numFmt : Option (JsNum → String)) (s2 : String), renderValue numFmt (.str s2) = s2) ∧
    (∀ (f : JsNum → String) (x : JsNum), renderValue (some f) (.num x) = f x) ∧
    (∀ x : JsNum, renderValue none (.num x) = jsNumToString x) ∧
    I18n.t [("greeting", "Hello, %\x7bname\x7d!")] "en" noIntl "greeting"
      (some [("name", .str "Amara")]) = .ok "Hello, Amara!" ∧
    I18n.t [("greeting", "Hello, %\x7bname\x7d!")] "en" noIntl "greeting"
      (some [("name", .bool false)]) = .ok "Hello, !" := by
  refine ⟨?_, ?_, ?_, fun _ _ => rfl, fun _ => ⟨rfl, rfl⟩, fun _ _ => rfl,
    fun _ _ => rfl, fun _ => rfl, by decide, by decide⟩
  · intro tr locale env k s hk hlk hph
    have hph' : containsPHList s.data = true := hph
    simp [I18n.t, hk, hlk, hph']
  · intro env s opts key hkmem hnone
    cases hOk : (I18n.replacePlaceholders env s opts).isOk with
    | false => rfl
    | true =>
      exfalso
      have hall := (replacePlaceholders_isOk_iff env s opts).mp hOk key hkmem
      rw [hnone] at hall
      exact absurd hall (by simp)
  · intro env s opts hall
    exact (replacePlaceholders_isOk_iff env s opts).mpr hall

/-- Witness for C4 at concrete inputs: the greeting string with no options
(error), and a replacement with the `name` key absent (not ok). -/
theorem c4_witness :
    I18n.t [("greeting", "Hello, %\x7bname\x7d!")] "en" noIntl "greeting" none =
      .error "i18n: cannot replace placeholders in string if no option data provided" ∧
    (I18n.replacePlaceholders noIntl "Hello, %\x7bname\x7d!" []).isOk = false :=
  ⟨c4_placeholder_substitution.1 [("greeting", "Hello, %\x7bname\x7d!")] "en" noIntl
      "greeting" "Hello, %\x7bname\x7d!" (by decide) (by decide) (by decide),
   c4_placeholder_substitution.2.1 noIntl "Hello, %\x7bname\x7d!" [] "name"
      (by decide) (by decide)⟩

/-! ## Accordion lemma toolkit -/

/-- The derived aggregate predicate depends only on the section list. -/
theorem checkIfAllSectionsOpen_congr (a b : AccState) (h : a.sections = b.sections) :
    checkIfAllSectionsOpen a = checkIfAllSectionsOpen b := by
  simp [checkIfAllSectionsOpen, h]

/-- A successful `updateShowAllButton` sets the aggregate aria-expanded to
the given value and leaves the sections and probe flag unchanged. -/
theorem updateShowAllButton_ok (cfg : AccordionConfig) (e : Bool) (st st' : AccState)
    (h : Accordion.updateShowAllButton cfg e st = .ok st') :
    st'.sections = st.sections ∧
    st'.browserSupportsSessionStorage = st.browserSupportsSessionStorage ∧
    st'.showAllAriaExpanded = e := by
  unfold Accordion.updateShowAllButton at h
  cases ht : accT cfg (if e then "hideAllSections" else "showAllSections") with
  | error m => rw [ht] at h; simp at h
  | ok txt =>
    rw [ht] at h
    simp only [JsResult.ok.injEq] at h
    subst h
    exact ⟨rfl, rfl, rfl⟩

/-- Case analysis of a successful `setExpanded` call: out-of-range and
guard-failing sections leave the state untouched; otherwise section `i` is
replaced by the updated record (expanded flag, aria attributes, rebuilt
label) and the aggregate control is recomputed from the new sections. -/
theorem setExpanded_ok_cases (cfg : AccordionConfig) (e : Bool) (i : Nat) (st st' : AccState)
    (h : Accordion.setExpanded cfg e i st = .ok st') :
    (st.sections[i]? = none ∧ st' = st) ∨
    (∃ s, st.sections[i]? = some s ∧ sectionGuard s = false ∧ st' = st) ∨
    (∃ s btnText msg,
      st.sections[i]? = some s ∧ sectionGuard s = true ∧
      accT cfg (if e then "hideSection" else "showSection") = .ok btnText ∧
      accT cfg (if e then "hideSectionAriaLabel" else "showSectionAriaLabel") = .ok msg ∧
      st'.sections = st.sections.set i
        { s with toggleText := btnText,
                 ariaExpandedAttr := some (if e then "true" else "false"),
                 ariaLabel := some (String.intercalate " , "
                   ((match s.headingTextEl with
                     | some hx => [jsTrim hx]
                     | none => []) ++
                    (match s.summaryEl with
                     | some y => [jsTrim y]
                     | none => []) ++ [msg])),
                 expandedClass := e,
                 contentHidden := !e,
                 downChevron := !e } ∧
      st'.browserSupportsSessionStorage = st.browserSupportsSessionStorage ∧
      st'.showAllAriaExpanded = checkIfAllSectionsOpen st') := by
  unfold Accordion.setExpanded at h
  cases hs : st.sections[i]? with
  | none =>
    rw [hs] at h
    simp only [JsResult.ok.injEq] at h
    exact Or.inl ⟨rfl, h.symm⟩
  | some s =>
    simp only [hs] at h
    by_cases hg : sectionGuard s = true
    · rw [if_pos hg] at h
      cases hbt : accT cfg (if e then "hideSection" else "showSection") with
      | error m => simp [hbt] at h
      | ok btnText =>
        simp only [hbt] at h
        cases hma : accT cfg (if e then "hideSectionAriaLabel" else "showSectionAriaLabel") with
        | error m => simp [hma] at h
        | ok msg =>
          simp only [hma] at h
          obtain ⟨hsec, hbs, hagg⟩ := updateShowAllButton_ok _ _ _ _ h
          refine Or.inr (Or.inr ⟨s, btnText, msg, rfl, hg, rfl, rfl, ?_, hbs, ?_⟩)
          · rw [hsec]
            simp [AccState.setSection, List.set_set]
          · rw [hagg]
            exact (checkIfAllSectionsOpen_congr _ _ (by rw [hsec])).symm
    · have hgf : sectionGuard s = false := by simpa using hg
      rw [if_neg hg] at h
      simp only [JsResult.ok.injEq] at h
      exact Or.inr (Or.inl ⟨s, rfl, hgf, h.symm⟩)

/-- A successful `setExpanded` preserves the probe flag, the section count,
and every other section. -/
theorem setExpanded_ok_locality (cfg : AccordionConfig) (e : Bool) (i : Nat) (st st' : AccState)
    (h : Accordion.setExpanded cfg e i st = .ok st') :
    st'.browserSupportsSessionStorage = st.browserSupportsSessionStorage ∧
    st'.sections.length = st.sections.length ∧
    ∀ j, j ≠ i → st'.sections[j]? = st.sections[j]? := by
  rcases setExpanded_ok_cases cfg e i st st' h with ⟨_, heq⟩ | ⟨s, _, _, heq⟩ | ⟨s, bt, m, _, _, _, _, hsec, hbs, _⟩
  · subst heq; exact ⟨rfl, rfl, fun j _ => rfl⟩
  · subst heq; exact ⟨rfl, rfl, fun j _ => rfl⟩
  · refine ⟨hbs, ?_, ?_⟩
    · rw [hsec, List.length_set]
    · intro j hj
      rw [hsec, List.getElem?_set_ne (fun hij => hj (hij.symm))]

/-- `storeState` never touches the accordion state, and a successful call
leaves the store's throwing flag unchanged. -/
theorem storeState_acc_preserved (cfg : AccordionConfig) (i : Nat) (w : World) :
    (∀ w', Accordion.storeState cfg i w = .ok w' →
      w'.acc = w.acc ∧ w'.store.setThrows = w.store.setThrows) ∧
    (∀ m w', Accordion.storeState cfg i w = .thrown m w' → w' = w) := by
  constructor
  · intro w' h
    unfold Accordion.storeState at h
    repeat' split at h
    all_goals simp_all
    all_goals (subst h; exact ⟨rfl, rfl⟩)
  · intro m w' h
    unfold Accordion.storeState at h
    repeat' split at h
    all_goals simp_all

/-- An index with a present element is in range. -/
theorem lt_length_of_getElem?_some {α : Type} (l : List α) (i : Nat) (a : α)
    (h : l[i]? = some a) : i < l.length := by
  by_contra hc
  push_neg at hc
  rw [List.getElem?_eq_none hc] at h
  exact absurd h (by simp)

/-- A module-derived content id is never the empty string. -/
theorem midContentId_ne (mid : String) (k : Nat) : mid ++ "-content-" ++ toString k ≠ "" := by
  intro hcontra
  have hlen := congrArg String.length hcontra
  have h9 : ("-content-" : String).length = 9 := by decide
  simp [String.length_append] at hlen
  omega

/-- `setItem` followed by `getItem` of the same key yields the value. -/
theorem lookup_setEntry_self (l : List (String × String)) (k v : String) :
    (setEntry l k v).lookup k = some v := by
  induction l with
  | nil => simp [setEntry, List.lookup]
  | cons p rest ih =>
    rcases p with ⟨k', v'⟩
    by_cases hk : k' = k
    · subst hk
      simp [setEntry, List.lookup]
    · rw [setEntry, if_neg hk]
      simp only [List.lookup]
      have : (k == k') = false := by
        simp [beq_iff_eq]
        intro hc
        exact hk hc.symm
      rw [this]
      exact ih

/-- `constructHeaderMarkup` on a section with its span and heading present. -/
theorem constructHeader_eq (mid : String) (i : Nat) (m : Section)
    (hbtn : m.hasButtonEl = true) (hhd : m.hasHeading = true) (hcid : m.contentId = none) :
    Accordion.constructHeader mid i m =
      { m with hasIcon := true,
               hasToggleText := true,
               headingTextEl := some m.spanHTML,
               contentId := some (mid ++ "-content-" ++ toString (i + 1)) } := by
  unfold Accordion.constructHeader
  rw [if_pos (by rw [hbtn, hhd]; rfl)]
  rw [hcid]

/-- `setInitialState` is a no-op when persistence is disabled. -/
theorem setInitialState_disabled (cfg : AccordionConfig) (i : Nat) (w : World)
    (hc : (w.acc.browserSupportsSessionStorage && cfg.rememberExpanded) = false) :
    Accordion.setInitialState cfg i w = .ok w := by
  unfold Accordion.setInitialState
  rw [hc]
  rfl

/-- `setInitialState` is a no-op when no value is stored under the section's
content id. -/
theorem setInitialState_absent (cfg : AccordionConfig) (i : Nat) (w : World) (s : Section) (cid : String)
    (hc : (w.acc.browserSupportsSessionStorage && cfg.rememberExpanded) = true)
    (hsec : w.acc.sections[i]? = some s) (hbtn : s.hasButtonEl = true)
    (hcid : s.contentId = some cid) (hne : cid ≠ "")
    (hlk : w.store.entries.lookup cid = none) :
    Accordion.setInitialState cfg i w = .ok w := by
  unfold Accordion.setInitialState
  rw [hc, if_pos rfl]
  simp only [hsec, hbtn, if_true, hcid, hne, hlk]
  rw [if_pos hne]

/-- `setInitialState` applies the stored value via `setExpanded` when one is
present. -/
theorem setInitialState_restores (cfg : AccordionConfig) (i : Nat) (w : World) (s : Section) (cid v : String)
    (hc : (w.acc.browserSupportsSessionStorage && cfg.rememberExpanded) = true)
    (hsec : w.acc.sections[i]? = some s) (hbtn : s.hasButtonEl = true)
    (hcid : s.contentId = some cid) (hne : cid ≠ "")
    (hlk : w.store.entries.lookup cid = some v) :
    Accordion.setInitialState cfg i w =
      (match Accordion.setExpanded cfg (v = "true") i w.acc with
       | .thrown m a => .thrown m { w with acc := a }
       | .ok a => .ok { w with acc := a }) := by
  unfold Accordion.setInitialState
  rw [hc, if_pos rfl]
  simp only [hsec, hbtn, if_true, hcid, hne, hlk]
  rw [if_pos hne]

/-- A successful `setInitialState` leaves the store, the probe flag, the
section count, and every other section unchanged. -/
theorem setInitialState_facts (cfg : AccordionConfig) (i : Nat) (w w' : World)
    (h : Accordion.setInitialState cfg i w = .ok w') :
    w'.store = w.store ∧
    w'.acc.browserSupportsSessionStorage = w.acc.browserSupportsSessionStorage ∧
    w'.acc.sections.length = w.acc.sections.length ∧
    ∀ j, j ≠ i → w'.acc.sections[j]? = w.acc.sections[j]? := by
  unfold Accordion.setInitialState at h
  by_cases hc : (w.acc.browserSupportsSessionStorage && cfg.rememberExpanded) = true
  · rw [hc, if_pos rfl] at h
    cases hsec : w.acc.sections[i]? with
    | none =>
      simp only [hsec, JsResult.ok.injEq] at h
      subst h
      exact ⟨rfl, rfl, rfl, fun j _ => rfl⟩
    | some s =>
      simp only [hsec] at h
      by_cases hbtn : s.hasButtonEl = true
      · rw [if_pos hbtn] at h
        cases hinner : (match s.contentId with
                        | some cid => if cid ≠ "" then w.store.entries.lookup cid else none
                        | none => none) with
        | none =>
          simp only [hinner, JsResult.ok.injEq] at h
          subst h
          exact ⟨rfl, rfl, rfl, fun j _ => rfl⟩
        | some cstate =>
          simp only [hinner] at h
          cases hse : Accordion.setExpanded cfg (cstate = "true") i w.acc with
          | thrown m a => simp [hse] at h
          | ok a =>
            simp only [hse, JsResult.ok.injEq] at h
            subst h
            obtain ⟨hbs, hlen, hoth⟩ := setExpanded_ok_locality _ _ _ _ _ hse
            exact ⟨rfl, hbs, hlen, hoth⟩
      · rw [if_neg hbtn] at h
        simp only [JsResult.ok.injEq] at h
        subst h
        exact ⟨rfl, rfl, rfl, fun j _ => rfl⟩
  · rw [eq_false_of_ne_true hc, if_neg (by simp)] at h
    simp only [JsResult.ok.injEq] at h
    subst h
    exact ⟨rfl, rfl, rfl, fun j _ => rfl⟩

/-- A successful `initSectionStep` leaves the store, the probe flag, the
section count, and every other section unchanged. -/
theorem initSectionStep_facts (cfg : AccordionConfig) (mid : String) (i : Nat) (w w' : World)
    (h : Accordion.initSectionStep cfg mid i w = .ok w') :
    w'.store = w.store ∧
    w'.acc.browserSupportsSessionStorage = w.acc.browserSupportsSessionStorage ∧
    w'.acc.sections.length = w.acc.sections.length ∧
    ∀ j, j ≠ i → w'.acc.sections[j]? = w.acc.sections[j]? := by
  unfold Accordion.initSectionStep at h
  cases hsec : w.acc.sections[i]? with
  | none =>
    simp only [hsec, JsResult.ok.injEq] at h
    subst h
    exact ⟨rfl, rfl, rfl, fun j _ => rfl⟩
  | some s =>
    simp only [hsec] at h
    by_cases hh : s.hasHeader = true
    · rw [if_pos hh] at h
      cases hse : Accordion.setExpanded cfg ((Accordion.constructHeader mid i s).expandedClass) i
          (w.acc.setSection i (Accordion.constructHeader mid i s)) with
      | thrown m a => simp [hse] at h
      | ok a2 =>
        simp only [hse] at h
        obtain ⟨hst2, hbs2, hlen2, hoth2⟩ := setInitialState_facts cfg i _ w' h
        obtain ⟨hbs1, hlen1, hoth1⟩ := setExpanded_ok_locality _ _ _ _ _ hse
        refine ⟨hst2, by rw [hbs2]; exact hbs1, ?_, ?_⟩
        · rw [hlen2]
          show a2.sections.length = w.acc.sections.length
          rw [hlen1]
          simp [AccState.setSection, List.length_set]
        · intro j hj
          rw [hoth2 j hj]
          show a2.sections[j]? = w.acc.sections[j]?
          rw [hoth1 j hj]
          simp [AccState.setSection, List.getElem?_set_ne (fun hij => hj hij.symm)]
    · rw [if_neg hh] at h
      simp only [JsResult.ok.injEq] at h
      subst h
      exact ⟨rfl, rfl, rfl, fun j _ => rfl⟩

/-- A successful `initLoop` run leaves the store, probe flag, and section
count unchanged, and does not touch sections whose index is not in its
list. -/
theorem initLoop_facts (cfg : AccordionConfig) (mid : String) :
    ∀ (l : List Nat) (w w' : World), Accordion.initLoop cfg mid l w = .ok w' →
      w'.store = w.store ∧
      w'.acc.browserSupportsSessionStorage = w.acc.browserSupportsSessionStorage ∧
      w'.acc.sections.length = w.acc.sections.length ∧
      ∀ j, j ∉ l → w'.acc.sections[j]? = w.acc.sections[j]? := by
  intro l
  induction l with
  | nil =>
    intro w w' h
    simp only [Accordion.initLoop, JsResult.ok.injEq] at h
    subst h
    exact ⟨rfl, rfl, rfl, fun j _ => rfl⟩
  | cons i rest ih =>
    intro w w' h
    unfold Accordion.initLoop at h
    cases hstep : Accordion.initSectionStep cfg mid i w with
    | thrown m w1 => simp [hstep] at h
    | ok w1 =>
      simp only [hstep] at h
      obtain ⟨f1s, f1b, f1l, f1o⟩ := initSectionStep_facts cfg mid i w w1 hstep
      obtain ⟨f2s, f2b, f2l, f2o⟩ := ih w1 w' h
      refine ⟨by rw [f2s, f1s], by rw [f2b, f1b], by rw [f2l, f1l], ?_⟩
      intro j hj
      have hj1 : j ≠ i := fun hji => hj (hji ▸ List.mem_cons_self i rest)
      have hj2 : j ∉ rest := fun hmem => hj (List.mem_cons_of_mem _ hmem)
      rw [f2o j hj2, f1o j hj1]

/-- For each index of a nodup list, a successful `initLoop` runs
`initSectionStep` on it exactly once, from a state agreeing with the start
state on the store, the probe flag, and that section, and the final state's
section is the step's output section. -/
theorem initLoop_at (cfg : AccordionConfig) (mid : String) :
    ∀ (l : List Nat) (w w' : World), Accordion.initLoop cfg mid l w = .ok w' → l.Nodup →
      ∀ i ∈ l, ∃ wPre wPost,
        Accordion.initSectionStep cfg mid i wPre = .ok wPost ∧
        wPre.store = w.store ∧
        wPre.acc.browserSupportsSessionStorage = w.acc.browserSupportsSessionStorage ∧
        wPre.acc.sections[i]? = w.acc.sections[i]? ∧
        w'.acc.sections[i]? = wPost.acc.sections[i]? := by
  intro l
  induction l with
  | nil =>
    intro w w' h hd i hi
    exact absurd hi (by simp)
  | cons j rest ih =>
    intro w w' h hd i hi
    unfold Accordion.initLoop at h
    cases hstep : Accordion.initSectionStep cfg mid j w with
    | thrown m w1 => simp [hstep] at h
    | ok w1 =>
      simp only [hstep] at h
      rcases List.mem_cons.mp hi with hij | hmem
      · subst hij
        have hnin : i ∉ rest := (List.nodup_cons.mp hd).1
        obtain ⟨_, _, _, hoth⟩ := initLoop_facts cfg mid rest w1 w' h
        exact ⟨w, w1, hstep, rfl, rfl, rfl, hoth i hnin⟩
      · have hd2 := (List.nodup_cons.mp hd).2
        obtain ⟨wPre, wPost, hstep2, hst, hbs, hsec, hfin⟩ := ih w1 w' h hd2 i hmem
        obtain ⟨f1s, f1b, f1l, f1o⟩ := initSectionStep_facts cfg mid j w w1 hstep
        have hij : i ≠ j := fun hije => (List.nodup_cons.mp hd).1 (hije ▸ hmem)
        exact ⟨wPre, wPost, hstep2, by rw [hst, f1s], by rw [hbs, f1b],
          by rw [hsec, f1o i hij], hfin⟩

/-- Unfolding a successful `initialize` with at least one section: the
constructor state, the section loop, and the final aggregate update. -/
theorem initialize_ok_unfold (markup : List Section) (mid : String) (cfg : AccordionConfig)
    (store : SessionStorage) (w : World) (hne : markup ≠ [])
    (h : Accordion.construct markup mid cfg store = .ok w) :
    ∃ wL, Accordion.initLoop cfg mid (List.range markup.length)
        { acc := { sections := markup,
                   browserSupportsSessionStorage := helper.checkForSessionStorage store,
                   showAllAriaExpanded := false,
                   showAllText := "",
                   showAllDownChevron := false },
          store := store } = .ok wL ∧
      w.store = wL.store ∧
      w.acc.sections = wL.acc.sections ∧
      w.acc.browserSupportsSessionStorage = wL.acc.browserSupportsSessionStorage := by
  unfold Accordion.construct at h
  rw [if_neg (by simp [hne])] at h
  cases hL : Accordion.initLoop cfg mid (List.range markup.length)
      { acc := { sections := markup,
                 browserSupportsSessionStorage := helper.checkForSessionStorage store,
                 showAllAriaExpanded := false,
                 showAllText := "",
                 showAllDownChevron := false },
        store := store } with
  | thrown m w1 => simp [hL] at h
  | ok wL =>
    simp only [hL] at h
    cases hub : Accordion.updateShowAllButton cfg (checkIfAllSectionsOpen wL.acc) wL.acc with
    | thrown m a => simp [hub] at h
    | ok a =>
      simp only [hub, JsResult.ok.injEq] at h
      subst h
      obtain ⟨hsec, hbs, _⟩ := updateShowAllButton_ok _ _ _ _ hub
      exact ⟨wL, rfl, rfl, hsec, hbs⟩

/-- What `initSectionHeaders` does to one well-formed section (header, span,
heading and content wrapper present, no pre-existing `aria-controls`): the
header is constructed (so the section passes the `setExpanded` guard and
carries the module-derived content id), and the final expanded class is the
markup default unless an entry for the content id is in the session store
and persistence is active, in which case the stored value wins. -/
theorem initSectionStep_section (cfg : AccordionConfig) (mid : String) (i : Nat) (w w' : World) (m : Section)
    (hstep : Accordion.initSectionStep cfg mid i w = .ok w')
    (hm : w.acc.sections[i]? = some m)
    (hh : m.hasHeader = true) (hbtn : m.hasButtonEl = true) (hhd : m.hasHeading = true)
    (hct : m.hasContent = true) (hcid : m.contentId = none) :
    ∃ sf, w'.acc.sections[i]? = some sf ∧
      sf.hasButtonEl = true ∧
      sectionGuard sf = true ∧
      sf.contentId = some (mid ++ "-content-" ++ toString (i + 1)) ∧
      ((w.acc.browserSupportsSessionStorage && cfg.rememberExpanded) = false →
        sf.expandedClass = m.expandedClass) ∧
      ((w.acc.browserSupportsSessionStorage && cfg.rememberExpanded) = true →
        w.store.entries.lookup (mid ++ "-content-" ++ toString (i + 1)) = none →
        sf.expandedClass = m.expandedClass) ∧
      (∀ v, (w.acc.browserSupportsSessionStorage && cfg.rememberExpanded) = true →
        w.store.entries.lookup (mid ++ "-content-" ++ toString (i + 1)) = some v →
        sf.expandedClass = decide (v = "true")) := by
  have hlen : i < w.acc.sections.length := lt_length_of_getElem?_some _ _ _ hm
  have hch := constructHeader_eq mid i m hbtn hhd hcid
  have hguardC : sectionGuard (Accordion.constructHeader mid i m) = true := by
    rw [hch]; simp [sectionGuard, hbtn, hct]
  unfold Accordion.initSectionStep at hstep
  simp only [hm] at hstep
  rw [if_pos hh] at hstep
  cases hse : Accordion.setExpanded cfg ((Accordion.constructHeader mid i m).expandedClass) i
      (w.acc.setSection i (Accordion.constructHeader mid i m)) with
  | thrown m2 a => simp [hse] at hstep
  | ok a2 =>
    simp only [hse] at hstep
    have hgetC : (w.acc.setSection i (Accordion.constructHeader mid i m)).sections[i]? =
        some (Accordion.constructHeader mid i m) := by
      simp only [AccState.setSection]
      exact List.getElem?_set_self hlen
    rcases setExpanded_ok_cases _ _ _ _ _ hse with
      ⟨hnone, _⟩ | ⟨s', hsome, hgf, _⟩ | ⟨s', bt, msg, hsome, hgd, hbtOk, hmsgOk, hsec2, hbs2, hagg2⟩
    · rw [hgetC] at hnone
      exact absurd hnone (by simp)
    · rw [hgetC] at hsome
      injection hsome with hs'
      exfalso
      rw [← hs'] at hgf
      rw [hguardC] at hgf
      exact absurd hgf (by simp)
    · rw [hgetC] at hsome
      injection hsome with hs'
      subst hs'
      have hgeta2 : a2.sections[i]? = some
          { (Accordion.constructHeader mid i m) with
            toggleText := bt,
            ariaExpandedAttr := some (if (Accordion.constructHeader mid i m).expandedClass then "true" else "false"),
            ariaLabel := some (String.intercalate " , "
              ((match (Accordion.constructHeader mid i m).headingTextEl with
                | some hx => [jsTrim hx]
                | none => []) ++
               (match (Accordion.constructHeader mid i m).summaryEl with
                | some y => [jsTrim y]
                | none => []) ++ [msg])),
            expandedClass := (Accordion.constructHeader mid i m).expandedClass,
            contentHidden := !(Accordion.constructHeader mid i m).expandedClass,
            downChevron := !(Accordion.constructHeader mid i m).expandedClass } := by
        rw [hsec2]
        exact List.getElem?_set_self (by simpa [AccState.setSection] using hlen)
      have hbsa2 : a2.browserSupportsSessionStorage = w.acc.browserSupportsSessionStorage := by
        rw [hbs2]; rfl
      have hbtn2 : ({ (Accordion.constructHeader mid i m) with
            toggleText := bt,
            ariaExpandedAttr := some (if (Accordion.constructHeader mid i m).expandedClass then "true" else "false"),
            ariaLabel := some (String.intercalate " , "
              ((match (Accordion.constructHeader mid i m).headingTextEl with
                | some hx => [jsTrim hx]
                | none => []) ++
               (match (Accordion.constructHeader mid i m).summaryEl with
                | some y => [jsTrim y]
                | none => []) ++ [msg])),
            expandedClass := (Accordion.constructHeader mid i m).expandedClass,
            contentHidden := !(Accordion.constructHeader mid i m).expandedClass,
            downChevron := !(Accordion.constructHeader mid i m).expandedClass } : Section).hasButtonEl = true := by
        rw [hch]; exact hbtn
      have hguard2 : sectionGuard { (Accordion.constructHeader mid i m) with
            toggleText := bt,
            ariaExpandedAttr := some (if (Accordion.constructHeader mid i m).expandedClass then "true" else "false"),
            ariaLabel := some (String.intercalate " , "
              ((match (Accordion.constructHeader mid i m).headingTextEl with
                | some hx => [jsTrim hx]
                | none => []) ++
               (match (Accordion.constructHeader mid i m).summaryEl with
                | some y => [jsTrim y]
                | none => []) ++ [msg])),
            expandedClass := (Accordion.constructHeader mid i m).expandedClass,
            contentHidden := !(Accordion.constructHeader mid i m).expandedClass,
            downChevron := !(Accordion.constructHeader mid i m).expandedClass } = true := by
        rw [hch]; simp [sectionGuard, hbtn, hct]
      have hcid2 : ({ (Accordion.constructHeader mid i m) with
            toggleText := bt,
            ariaExpandedAttr := some (if (Accordion.constructHeader mid i m).expandedClass then "true" else "false"),
            ariaLabel := some (String.intercalate " , "
              ((match (Accordion.constructHeader mid i m).headingTextEl with
                | some hx => [jsTrim hx]
                | none => []) ++
               (match (Accordion.constructHeader mid i m).summaryEl with
                | some y => [jsTrim y]
                | none => []) ++ [msg])),
            expandedClass := (Accordion.constructHeader mid i m).expandedClass,
            contentHidden := !(Accordion.constructHeader mid i m).expandedClass,
            downChevron := !(Accordion.constructHeader mid i m).expandedClass } : Section).contentId =
          some (mid ++ "-content-" ++ toString (i + 1)) := by
        rw [hch]
      have hclass2 : ({ (Accordion.constructHeader mid i m) with
            toggleText := bt,
            ariaExpandedAttr := some (if (Accordion.constructHeader mid i m).expandedClass then "true" else "false"),
            ariaLabel := some (String.intercalate " , "
              ((match (Accordion.constructHeader mid i m).headingTextEl with
                | some hx => [jsTrim hx]
                | none => []) ++
               (match (Accordion.constructHeader mid i m).summaryEl with
                | some y => [jsTrim y]
                | none => []) ++ [msg])),
            expandedClass := (Accordion.constructHeader mid i m).expandedClass,
            contentHidden := !(Accordion.constructHeader mid i m).expandedClass,
            downChevron := !(Accordion.constructHeader mid i m).expandedClass } : Section).expandedClass =
          m.expandedClass := by
        rw [hch]
      by_cases hc : (w.acc.browserSupportsSessionStorage && cfg.rememberExpanded) = true
      · have hcW : (({ w with acc := a2 } : World).acc.browserSupportsSessionStorage &&
            cfg.rememberExpanded) = true := by
          show (a2.browserSupportsSessionStorage && cfg.rememberExpanded) = true
          rw [hbsa2]; exact hc
        cases hlk : w.store.entries.lookup (mid ++ "-content-" ++ toString (i + 1)) with
        | none =>
          have hnoop := setInitialState_absent cfg i { w with acc := a2 } _ _ hcW hgeta2 hbtn2 hcid2
            (midContentId_ne mid (i + 1)) hlk
          rw [hnoop] at hstep
          simp only [JsResult.ok.injEq] at hstep
          subst hstep
          refine ⟨_, hgeta2, hbtn2, hguard2, hcid2, ?_, ?_, ?_⟩
          · intro hcc; rw [hcc] at hc; exact absurd hc (by simp)
          · intro _ _; exact hclass2
          · intro v _ hlk2; exact absurd hlk2 (by simp)
        | some v =>
          have hr := setInitialState_restores cfg i { w with acc := a2 } _ _ v hcW hgeta2 hbtn2 hcid2
            (midContentId_ne mid (i + 1)) hlk
          rw [hr] at hstep
          cases hse3 : Accordion.setExpanded cfg (v = "true") i a2 with
          | thrown m3 a3 => simp [hse3] at hstep
          | ok a3 =>
            simp only [hse3, JsResult.ok.injEq] at hstep
            subst hstep
            rcases setExpanded_ok_cases _ _ _ _ _ hse3 with
              ⟨hnone3, _⟩ | ⟨s3, hsome3, hgf3, _⟩ | ⟨s3, bt3, msg3, hsome3, hgd3, _, _, hsec3, _, _⟩
            · rw [hgeta2] at hnone3
              exact absurd hnone3 (by simp)
            · rw [hgeta2] at hsome3
              injection hsome3 with hs3
              exfalso
              rw [← hs3] at hgf3
              rw [hguard2] at hgf3
              exact absurd hgf3 (by simp)
            · rw [hgeta2] at hsome3
              injection hsome3 with hs3
              have hgeta3 : a3.sections[i]? = some
                  { s3 with
                    toggleText := bt3,
                    ariaExpandedAttr := some (if decide (v = "true") then "true" else "false"),
                    ariaLabel := some (String.intercalate " , "
                      ((match s3.headingTextEl with
                        | some hx => [jsTrim hx]
                        | none => []) ++
                       (match s3.summaryEl with
                        | some y => [jsTrim y]
                        | none => []) ++ [msg3])),
                    expandedClass := decide (v = "true"),
                    contentHidden := !(decide (v = "true")),
                    downChevron := !(decide (v = "true")) } := by
                rw [hsec3]
                exact List.getElem?_set_self (lt_length_of_getElem?_some _ _ _ hgeta2)
              refine ⟨_, hgeta3, ?_, ?_, ?_, ?_, ?_, ?_⟩
              · show s3.hasButtonEl = true
                rw [← hs3]; exact hbtn2
              · show sectionGuard _ = true
                simp only [sectionGuard]
                rw [← hs3]
                have := hguard2
                simp only [sectionGuard] at this
                rw [hch] at this ⊢
                simpa using this
              · show s3.contentId = some (mid ++ "-content-" ++ toString (i + 1))
                rw [← hs3]; exact hcid2
              · intro hcc; rw [hcc] at hc; exact absurd hc (by simp)
              · intro _ hlk2; exact absurd hlk2 (by simp)
              · intro v2 _ hlk2
                injection hlk2 with hv2
                subst hv2
                rfl
      · have hcF : (w.acc.browserSupportsSessionStorage && cfg.rememberExpanded) = false :=
          eq_false_of_ne_true hc
        have hcWF : (({ w with acc := a2 } : World).acc.browserSupportsSessionStorage &&
            cfg.rememberExpanded) = false := by
          show (a2.browserSupportsSessionStorage && cfg.rememberExpanded) = false
          rw [hbsa2]; exact hcF
        have hnoop := setInitialState_disabled cfg i { w with acc := a2 } hcWF
        rw [hnoop] at hstep
        simp only [JsResult.ok.injEq] at hstep
        subst hstep
        refine ⟨_, hgeta2, hbtn2, hguard2, hcid2, ?_, ?_, ?_⟩
        · intro _; exact hclass2
        · intro hcc _; rw [hcc] at hcF; exact absurd hcF (by simp)
        · intro v hcc _; rw [hcc] at hcF; exact absurd hcF (by simp)

/-- Combined characterization of one well-formed section after a successful
`initialize` over given markup and store: the constructed section passes the
guard, carries the module-derived content id, and its expanded class is the
markup default unless persistence is active and a stored value exists, in
which case the stored value wins. -/
theorem initialize_section (markup : List Section) (mid : String) (cfg : AccordionConfig)
    (store : SessionStorage) (w : World) (i : Nat) (m : Section)
    (h : Accordion.construct markup mid cfg store = .ok w)
    (hm : markup[i]? = some m)
    (hh : m.hasHeader = true) (hbtn : m.hasButtonEl = true) (hhd : m.hasHeading = true)
    (hct : m.hasContent = true) (hcid : m.contentId = none) :
    ∃ sf, w.acc.sections[i]? = some sf ∧
      sf.hasButtonEl = true ∧
      sectionGuard sf = true ∧
      sf.contentId = some (mid ++ "-content-" ++ toString (i + 1)) ∧
      ((!store.setThrows && cfg.rememberExpanded) = false → sf.expandedClass = m.expandedClass) ∧
      ((!store.setThrows && cfg.rememberExpanded) = true →
        store.entries.lookup (mid ++ "-content-" ++ toString (i + 1)) = none →
        sf.expandedClass = m.expandedClass) ∧
      (∀ v, (!store.setThrows && cfg.rememberExpanded) = true →
        store.entries.lookup (mid ++ "-content-" ++ toString (i + 1)) = some v →
        sf.expandedClass = decide (v = "true")) ∧
      w.acc.browserSupportsSessionStorage = !store.setThrows ∧
      w.store = store := by
  have hne : markup ≠ [] := by
    intro hE
    rw [hE] at hm
    exact absurd hm (by simp)
  obtain ⟨wL, hL, hwst, hwsec, hwbs⟩ := initialize_ok_unfold markup mid cfg store w hne h
  have hiRange : i ∈ List.range markup.length :=
    List.mem_range.mpr (lt_length_of_getElem?_some _ _ _ hm)
  obtain ⟨wPre, wPost, hstep, hpst, hpbs, hpsec, hfin⟩ :=
    initLoop_at cfg mid (List.range markup.length) _ wL hL (List.nodup_range _) i hiRange
  obtain ⟨hLst, hLbs, _, _⟩ := initLoop_facts cfg mid (List.range markup.length) _ wL hL
  have hmPre : wPre.acc.sections[i]? = some m := by rw [hpsec]; exact hm
  have hbsPre : wPre.acc.browserSupportsSessionStorage = !store.setThrows := by
    rw [hpbs]; rfl
  have hstPre : wPre.store = store := hpst
  obtain ⟨sf, hget, hbtnf, hguardf, hcidf, hc1, hc2, hc3⟩ :=
    initSectionStep_section cfg mid i wPre wPost m hstep hmPre hh hbtn hhd hct hcid
  refine ⟨sf, ?_, hbtnf, hguardf, hcidf, ?_, ?_, ?_, ?_, ?_⟩
  · rw [hwsec, hfin]; exact hget
  · intro hcf
    exact hc1 (by rw [hbsPre]; exact hcf)
  · intro hcT hlkN
    exact hc2 (by rw [hbsPre]; exact hcT) (by rw [hstPre]; exact hlkN)
  · intro v hcT hlkS
    exact hc3 v (by rw [hbsPre]; exact hcT) (by rw [hstPre]; exact hlkS)
  · rw [hwbs, hLbs]; rfl
  · rw [hwst, hLst]

/-- `storeState` writes the button's aria attributes to the session store
when persistence is active, the attributes are present and non-empty, and
the store does not throw. -/
theorem storeState_writes (cfg : AccordionConfig) (i : Nat) (w : World) (s : Section) (cid v : String)
    (hbs : w.acc.browserSupportsSessionStorage = true) (hre : cfg.rememberExpanded = true)
    (hs : w.acc.sections[i]? = some s) (hbtn : s.hasButtonEl = true)
    (hcid : s.contentId = some cid) (hv : s.ariaExpandedAttr = some v)
    (hcne : cid ≠ "") (hvne : v ≠ "") (hth : w.store.setThrows = false) :
    Accordion.storeState cfg i w =
      .ok { w with store := { w.store with entries := setEntry w.store.entries cid v } } := by
  unfold Accordion.storeState
  rw [hbs, hre]
  simp only [Bool.and_self, if_true, hs, hbtn, hcid, hv]
  rw [if_pos ⟨hcne, hvne⟩, hth]
  rfl

/-- C5: persistence round trip. With `rememberExpanded` true and a working
store, `setExpanded(true, s)` then `storeState(s)` followed by a fresh
`initialize` over the same markup restores the section to expanded; with
`rememberExpanded` false the same sequence leaves the freshly initialised
section in its markup-default state regardless of prior store contents; and
with persistence active, the absence of a stored value leaves the section's
markup-default state untouched. -/
theorem c5_persistence_round_trip
    (markup : List Section) (mid : String) (cfgT cfgF : AccordionConfig)
    (store0 storeB : SessionStorage) (storeC : SessionStorage) (i : Nat) (m : Section)
    (w0 : World) (a1 : AccState) (w2 w3 : World)
    (w0b : World) (a1b : AccState) (w2b w3b wc : World)
    (hm : markup[i]? = some m)
    (hh : m.hasHeader = true) (hbtn : m.hasButtonEl = true) (hhd : m.hasHeading = true)
    (hct : m.hasContent = true) (hcid : m.contentId = none)
    (hT : cfgT.rememberExpanded = true) (hF : cfgF.rememberExpanded = false)
    (hst0 : store0.setThrows = false)
    (h0 : Accordion.construct markup mid cfgT store0 = .ok w0)
    (h1 : Accordion.setExpanded cfgT true i w0.acc = .ok a1)
    (h2 : Accordion.storeState cfgT i { acc := a1, store := w0.store } = .ok w2)
    (h3 : Accordion.construct markup mid cfgT w2.store = .ok w3)
    (hb0 : Accordion.construct markup mid cfgF storeB = .ok w0b)
    (hb1 : Accordion.setExpanded cfgF true i w0b.acc = .ok a1b)
    (hb2 : Accordion.storeState cfgF i { acc := a1b, store := w0b.store } = .ok w2b)
    (hb3 : Accordion.construct markup mid cfgF w2b.store = .ok w3b)
    (hstC : storeC.setThrows = false)
    (hlkC : storeC.entries.lookup (mid ++ "-content-" ++ toString (i + 1)) = none)
    (hc0 : Accordion.construct markup mid cfgT storeC = .ok wc) :
    ((w3.acc.sections[i]?).map (fun s => s.expandedClass) = some true) ∧
    ((w3b.acc.sections[i]?).map (fun s => s.expandedClass) = some m.expandedClass) ∧
    ((wc.acc.sections[i]?).map (fun s => s.expandedClass) = some m.expandedClass) := by
  refine ⟨?_, ?_, ?_⟩
  · -- Part A: write then restore
    obtain ⟨s0, hget0, hbtn0, hguard0, hcid0, _, _, _, hbs0, hst0w⟩ :=
      initialize_section markup mid cfgT store0 w0 i m h0 hm hh hbtn hhd hct hcid
    rcases setExpanded_ok_cases cfgT true i w0.acc a1 h1 with
      ⟨hnone, _⟩ | ⟨s', hsome, hgf, _⟩ | ⟨s', bt, msg, hsome, hgd, _, _, hsec1, hbs1, _⟩
    · rw [hget0] at hnone
      exact absurd hnone (by simp)
    · rw [hget0] at hsome
      injection hsome with hs'
      rw [← hs'] at hgf
      rw [hguard0] at hgf
      exact absurd hgf (by simp)
    · rw [hget0] at hsome
      injection hsome with hs'
      subst hs'
      have hgeta1 : a1.sections[i]? = some
          { s0 with
            toggleText := bt,
            ariaExpandedAttr := some (if true then "true" else "false"),
            ariaLabel := some (String.intercalate " , "
              ((match s0.headingTextEl with
                | some hx => [jsTrim hx]
                | none => []) ++
               (match s0.summaryEl with
                | some y => [jsTrim y]
                | none => []) ++ [msg])),
            expandedClass := true,
            contentHidden := !true,
            downChevron := !true } := by
        rw [hsec1]
        exact List.getElem?_set_self (lt_length_of_getElem?_some _ _ _ hget0)
      have hw2 := storeState_writes cfgT i { acc := a1, store := w0.store } _
        (mid ++ "-content-" ++ toString (i + 1)) "true"
        (by show a1.browserSupportsSessionStorage = true
            rw [hbs1, hbs0, hst0]; rfl)
        hT hgeta1
        (by show s0.hasButtonEl = true; exact hbtn0)
        (by show s0.contentId = _; exact hcid0)
        rfl
        (midContentId_ne mid (i + 1)) (by decide)
        (by show w0.store.setThrows = false; rw [hst0w]; exact hst0)
      rw [hw2] at h2
      simp only [JsResult.ok.injEq] at h2
      obtain ⟨sf3, hget3, _, _, _, _, _, hc3v, _, _⟩ :=
        initialize_section markup mid cfgT w2.store w3 i m h3 hm hh hbtn hhd hct hcid
      have hsetTh : w2.store.setThrows = false := by
        rw [← h2]
        show w0.store.setThrows = false
        rw [hst0w]; exact hst0
      have hlk3 : w2.store.entries.lookup (mid ++ "-content-" ++ toString (i + 1)) = some "true" := by
        rw [← h2]
        exact lookup_setEntry_self _ _ _
      have hclass3 := hc3v "true" (by rw [hsetTh, hT]; rfl) hlk3
      rw [hget3]
      simp [hclass3]
  · -- Part B: rememberExpanded false, fresh init keeps the markup default
    obtain ⟨sfb, hgetb, _, _, _, hcb1, _, _, _, _⟩ :=
      initialize_section markup mid cfgF w2b.store w3b i m hb3 hm hh hbtn hhd hct hcid
    have hclassb := hcb1 (by rw [hF]; simp)
    rw [hgetb]
    simp [hclassb]
  · -- Part C: absent stored value leaves the markup default untouched
    obtain ⟨sfc, hgetc, _, _, _, _, hcc2, _, _, _⟩ :=
      initialize_section markup mid cfgT storeC wc i m hc0 hm hh hbtn hhd hct hcid
    have hclassc := hcc2 (by rw [hstC, hT]; rfl) hlkC
    rw [hgetc]
    simp [hclassc]

/-- The state a JavaScript run leaves behind (whether it returned or threw). -/
def JsResult.extract {σ : Type} : JsResult σ → σ
  | .ok st => st
  | .thrown _ st => st

/-- A well-formed markup section (header, button span, heading, content
wrapper; collapsed by default). -/
def mWit : Section :=
  { hasHeader := true, hasButtonEl := true, hasHeading := true, hasIcon := false,
    hasToggleText := false, hasContent := true, spanHTML := "Section one",
    headingTextEl := none, summaryEl := none, contentId := none,
    ariaExpandedAttr := none, ariaLabel := none, toggleText := "",
    expandedClass := false, contentHidden := true, downChevron := false }

/-- The default configuration with `rememberExpanded` disabled. -/
def cfgNoRemember : AccordionConfig :=
  { translations := Accordion.defaultI18n, rememberExpanded := false }

/-- Concrete run for the C5 witness: initialise, expand, persist, re-init. -/
def c5w0 : World :=
  (Accordion.construct [mWit] "acc" Accordion.defaultConfig ⟨[], false⟩).extract

/-- State after expanding section 0 of `c5w0`. -/
def c5a1 : AccState :=
  (Accordion.setExpanded Accordion.defaultConfig true 0 c5w0.acc).extract

/-- World after persisting section 0. -/
def c5w2 : World :=
  (Accordion.storeState Accordion.defaultConfig 0 { acc := c5a1, store := c5w0.store }).extract

/-- Fresh initialisation over the same markup and the persisted store. -/
def c5w3 : World :=
  (Accordion.construct [mWit] "acc" Accordion.defaultConfig c5w2.store).extract

/-- The `rememberExpanded = false` variant of the run. -/
def c5w0b : World :=
  (Accordion.construct [mWit] "acc" cfgNoRemember ⟨[("stale", "true")], false⟩).extract

/-- State after expanding section 0 of `c5w0b`. -/
def c5a1b : AccState :=
  (Accordion.setExpanded cfgNoRemember true 0 c5w0b.acc).extract

/-- World after the (inactive) persistence attempt. -/
def c5w2b : World :=
  (Accordion.storeState cfgNoRemember 0 { acc := c5a1b, store := c5w0b.store }).extract

/-- Fresh initialisation with `rememberExpanded = false`. -/
def c5w3b : World :=
  (Accordion.construct [mWit] "acc" cfgNoRemember c5w2b.store).extract

/-- Initialisation with persistence active but an empty store. -/
def c5wc : World :=
  (Accordion.construct [mWit] "acc" Accordion.defaultConfig ⟨[], false⟩).extract

/-- Witness for C5 at the concrete one-section accordion. -/
theorem c5_witness :
    ((c5w3.acc.sections[0]?).map (fun s => s.expandedClass) = some true) ∧
    ((c5w3b.acc.sections[0]?).map (fun s => s.expandedClass) = some mWit.expandedClass) ∧
    ((c5wc.acc.sections[0]?).map (fun s => s.expandedClass) = some mWit.expandedClass) :=
  c5_persistence_round_trip [mWit] "acc" Accordion.defaultConfig cfgNoRemember
    ⟨[], false⟩ ⟨[("stale", "true")], false⟩ ⟨[], false⟩ 0 mWit
    c5w0 c5a1 c5w2 c5w3 c5w0b c5a1b c5w2b c5w3b c5wc
    (by decide) (by decide) (by decide) (by decide) (by decide) (by decide)
    (by decide) (by decide) (by decide)
    (by decide) (by decide) (by decide) (by decide)
    (by decide) (by decide) (by decide) (by decide)
    (by decide) (by decide) (by decide)

/-- The `onShowOrHideAllToggle` loop, when every section passes the
`setExpanded` guard and every index in the list is in range, sets every
listed section's expanded class to the target value, leaves unlisted
sections untouched, and preserves the count and all guards. -/
theorem toggleAllLoop_ok (cfg : AccordionConfig) (e : Bool) :
    ∀ (l : List Nat) (w w' : World), Accordion.toggleAllLoop cfg e l w = .ok w' →
      (∀ s ∈ w.acc.sections, sectionGuard s = true) →
      (∀ j ∈ l, j < w.acc.sections.length) →
      w'.acc.sections.length = w.acc.sections.length ∧
      (∀ s ∈ w'.acc.sections, sectionGuard s = true) ∧
      (∀ j ∈ l, (w'.acc.sections[j]?).map (fun s => s.expandedClass) = some e) ∧
      (∀ j, j ∉ l → w'.acc.sections[j]? = w.acc.sections[j]?) := by
  intro l
  induction l with
  | nil =>
    intro w w' h hg _
    simp only [Accordion.toggleAllLoop, JsResult.ok.injEq] at h
    subst h
    exact ⟨rfl, hg, fun j hj => by simp at hj, fun j _ => rfl⟩
  | cons j0 rest ih =>
    intro w w' h hguards hrange
    unfold Accordion.toggleAllLoop at h
    cases hse : Accordion.setExpanded cfg e j0 w.acc with
    | thrown m a => simp [hse] at h
    | ok a1 =>
      simp only [hse] at h
      cases hst : Accordion.storeState cfg j0 { w with acc := a1 } with
      | thrown m w1 => simp [hst] at h
      | ok w1 =>
        simp only [hst] at h
        have ha1 : w1.acc = a1 := ((storeState_acc_preserved cfg j0 { w with acc := a1 }).1 w1 hst).1
        have hj0lt : j0 < w.acc.sections.length := hrange j0 (List.mem_cons_self j0 rest)
        obtain ⟨s0, hs0⟩ : ∃ s0, w.acc.sections[j0]? = some s0 := by
          rcases hj0 : w.acc.sections[j0]? with _ | s0
          · rw [List.getElem?_eq_none_iff] at hj0
            omega
          · exact ⟨s0, rfl⟩
        have hs0mem : s0 ∈ w.acc.sections := by
          rw [List.mem_iff_getElem?]
          exact ⟨j0, hs0⟩
        have hs0guard := hguards s0 hs0mem
        rcases setExpanded_ok_cases cfg e j0 w.acc a1 hse with
          ⟨hnone, _⟩ | ⟨s', hsome, hgf, _⟩ | ⟨s', bt, msg, hsome, _, _, _, hsec1, _, _⟩
        · rw [hs0] at hnone
          exact absurd hnone (by simp)
        · rw [hs0] at hsome
          injection hsome with hs'
          rw [← hs'] at hgf
          rw [hs0guard] at hgf
          exact absurd hgf (by simp)
        · rw [hs0] at hsome
          injection hsome with hs'
          subst hs'
          have hguards1 : ∀ s ∈ w1.acc.sections, sectionGuard s = true := by
            intro s hs
            rw [ha1, hsec1] at hs
            rcases List.mem_or_eq_of_mem_set hs with hmem | heq
            · exact hguards s hmem
            · subst heq
              show sectionGuard _ = true
              simp only [sectionGuard]
              have := hs0guard
              simp only [sectionGuard] at this
              simpa using this
          have hlen1 : w1.acc.sections.length = w.acc.sections.length := by
            rw [ha1, hsec1, List.length_set]
          have hrange1 : ∀ j ∈ rest, j < w1.acc.sections.length := by
            intro j hj
            rw [hlen1]
            exact hrange j (List.mem_cons_of_mem _ hj)
          obtain ⟨hlen2, hg2, hset2, hnot2⟩ := ih w1 w' h hguards1 hrange1
          have hj0v : w1.acc.sections[j0]? = some
              { s0 with
                toggleText := bt,
                ariaExpandedAttr := some (if e then "true" else "false"),
                ariaLabel := some (String.intercalate " , "
                  ((match s0.headingTextEl with
                    | some hx => [jsTrim hx]
                    | none => []) ++
                   (match s0.summaryEl with
                    | some y => [jsTrim y]
                    | none => []) ++ [msg])),
                expandedClass := e,
                contentHidden := !e,
                downChevron := !e } := by
            rw [ha1, hsec1]
            exact List.getElem?_set_self hj0lt
          refine ⟨by rw [hlen2, hlen1], hg2, ?_, ?_⟩
          · intro j hj
            rcases List.mem_cons.mp hj with hj0e | hjr
            · subst hj0e
              by_cases hjrest : j ∈ rest
              · exact hset2 j hjrest
              · rw [hnot2 j hjrest, hj0v]
                rfl
            · exact hset2 j hjr
          · intro j hj
            have hj1 : j ≠ j0 := fun hje => hj (hje ▸ List.mem_cons_self j0 rest)
            have hj2 : j ∉ rest := fun hm => hj (List.mem_cons_of_mem _ hm)
            rw [hnot2 j hj2, ha1, hsec1, List.getElem?_set_ne (fun hij => hj1 hij.symm)]

/-- C1 (amended): after any successful `setExpanded` on a section passing
the guard, the aggregate control equals the derived all-open value; on a
guard-failing section `setExpanded` leaves the whole state unchanged; and
the show/hide-all toggle re-establishes the derived value provided every
section passes the guard (with at least one section). With a malformed
section the toggle's final update uses the precomputed target instead of a
recomputation and can desynchronise the aggregate (see the counterexample). -/
theorem c1_aggregate_amended :
    (∀ (cfg : AccordionConfig) (e : Bool) (i : Nat) (st st' : AccState) (s : Section),
      st.sections[i]? = some s → sectionGuard s = true →
      Accordion.setExpanded cfg e i st = .ok st' →
      st'.showAllAriaExpanded = checkIfAllSectionsOpen st') ∧
    (∀ (cfg : AccordionConfig) (e : Bool) (i : Nat) (st st' : AccState) (s : Section),
      st.sections[i]? = some s → sectionGuard s = false →
      Accordion.setExpanded cfg e i st = .ok st' → st' = st) ∧
    (∀ (cfg : AccordionConfig) (w w' : World),
      0 < w.acc.sections.length →
      (∀ s ∈ w.acc.sections, sectionGuard s = true) →
      Accordion.onShowOrHideAllToggle cfg w = .ok w' →
      w'.acc.showAllAriaExpanded = checkIfAllSectionsOpen w'.acc) := by
  refine ⟨?_, ?_, ?_⟩
  · intro cfg e i st st' s hs hg h
    rcases setExpanded_ok_cases cfg e i st st' h with
      ⟨hnone, _⟩ | ⟨s', hsome, hgf, _⟩ | ⟨s', bt, msg, _, _, _, _, _, _, hagg⟩
    · rw [hs] at hnone
      exact absurd hnone (by simp)
    · rw [hs] at hsome
      injection hsome with hs'
      rw [← hs', hg] at hgf
      exact absurd hgf (by simp)
    · exact hagg
  · intro cfg e i st st' s hs hg h
    rcases setExpanded_ok_cases cfg e i st st' h with
      ⟨hnone, _⟩ | ⟨s', _, _, heq⟩ | ⟨s', bt, msg, hsome, hgd, _, _, _, _, _⟩
    · rw [hs] at hnone
      exact absurd hnone (by simp)
    · exact heq
    · rw [hs] at hsome
      injection hsome with hs'
      rw [← hs', hg] at hgd
      exact absurd hgd (by simp)
  · intro cfg w w' hn hguards h
    unfold Accordion.onShowOrHideAllToggle at h
    cases hL : Accordion.toggleAllLoop cfg (!checkIfAllSectionsOpen w.acc)
        (List.range w.acc.sections.length) w with
    | thrown m w1 => simp [hL] at h
    | ok wL =>
      simp only [hL] at h
      cases hub : Accordion.updateShowAllButton cfg (!checkIfAllSectionsOpen w.acc) wL.acc with
      | thrown m a => simp [hub] at h
      | ok a =>
        simp only [hub, JsResult.ok.injEq] at h
        subst h
        obtain ⟨hsecU, _, haggU⟩ := updateShowAllButton_ok _ _ _ _ hub
        obtain ⟨hlen, _, hall, _⟩ := toggleAllLoop_ok cfg _ _ w wL hL hguards
          (fun j hj => List.mem_range.mp hj)
        show a.showAllAriaExpanded = checkIfAllSectionsOpen a
        rw [haggU, checkIfAllSectionsOpen_congr a wL.acc (by rw [hsecU])]
        have hallmem : ∀ s ∈ wL.acc.sections,
            s.expandedClass = !checkIfAllSectionsOpen w.acc := by
          intro s hsm
          rcases List.mem_iff_getElem?.mp hsm with ⟨j, hj⟩
          have hjlt : j < wL.acc.sections.length := lt_length_of_getElem?_some _ _ _ hj
          have hjmem : j ∈ List.range w.acc.sections.length :=
            List.mem_range.mpr (by rw [← hlen]; exact hjlt)
          have hje := hall j hjmem
          rw [hj] at hje
          simpa using hje
        cases hcw : checkIfAllSectionsOpen w.acc with
        | true =>
          rw [hcw] at hallmem
          have hfil : wL.acc.sections.filter (fun s => s.expandedClass) = [] := by
            rw [List.filter_eq_nil_iff]
            intro s hsm
            simp [hallmem s hsm]
          have h0 : (wL.acc.sections.length == 0) = false := by
            rw [beq_eq_false_iff_ne, hlen]
            omega
          simp [checkIfAllSectionsOpen, hfil, h0]
        | false =>
          rw [hcw] at hallmem
          have hfil : wL.acc.sections.filter (fun s => s.expandedClass) = wL.acc.sections :=
            List.filter_eq_self.mpr (fun s hsm => by simp [hallmem s hsm])
          simp [checkIfAllSectionsOpen, hfil]

/-- A section whose content wrapper is missing: `setExpanded` no-ops on it. -/
def c1BadSection : Section := { mWit with hasContent := false }

/-- Counterexample run for C1: two sections, the second malformed, then one
show-all toggle. -/
def c1w0 : World :=
  (Accordion.construct [mWit, c1BadSection] "acc" Accordion.defaultConfig ⟨[], false⟩).extract

/-- The world after the show-all toggle of the counterexample run. -/
def c1w1 : World :=
  (Accordion.onShowOrHideAllToggle Accordion.defaultConfig c1w0).extract

/-- C1 counterexample: in an initialised accordion with one well-formed and
one malformed (no content wrapper) section, the show/hide-all toggle
completes normally yet leaves the aggregate control expanded while the
derived value (all sections open) is false — the aggregate is set from the
precomputed target, not recomputed. -/
theorem c1_counterexample :
    Accordion.construct [mWit, c1BadSection] "acc" Accordion.defaultConfig ⟨[], false⟩ =
      .ok c1w0 ∧
    Accordion.onShowOrHideAllToggle Accordion.defaultConfig c1w0 = .ok c1w1 ∧
    c1w1.acc.showAllAriaExpanded = true ∧
    checkIfAllSectionsOpen c1w1.acc = false := by
  refine ⟨by decide, by decide, by decide, by decide⟩

/-- Witness for C1 (amended) at a concrete one-section accordion. -/
def c1ww : World :=
  (Accordion.construct [mWit] "acc" Accordion.defaultConfig ⟨[], false⟩).extract

/-- The world after toggling all sections of `c1ww`. -/
def c1ww1 : World :=
  (Accordion.onShowOrHideAllToggle Accordion.defaultConfig c1ww).extract

/-- Witness for C1 (amended): with every section well-formed the toggle
re-establishes the derived aggregate. -/
theorem c1_witness :
    c1ww1.acc.showAllAriaExpanded = checkIfAllSectionsOpen c1ww1.acc :=
  c1_aggregate_amended.2.2 Accordion.defaultConfig c1ww c1ww1
    (by decide) (by decide) (by decide)

/-- C7: toggling a section twice in succession restores its original
expanded value and leaves every other section entirely unchanged (whether
or not the section is well-formed: a malformed section no-ops both times). -/
theorem c7_double_toggle (cfg : AccordionConfig) (i : Nat) (w w1 w2 : World)
    (h1 : Accordion.onSectionToggle cfg i w = .ok w1)
    (h2 : Accordion.onSectionToggle cfg i w1 = .ok w2) :
    ((w2.acc.sections[i]?).map (fun s => s.expandedClass)) =
      ((w.acc.sections[i]?).map (fun s => s.expandedClass)) ∧
    ∀ j, j ≠ i → w2.acc.sections[j]? = w.acc.sections[j]? := by
  unfold Accordion.onSectionToggle at h1 h2
  cases hse1 : Accordion.setExpanded cfg (!(Accordion.isExpanded w.acc i)) i w.acc with
  | thrown m a => simp [hse1] at h1
  | ok a1 =>
    simp only [hse1] at h1
    have ha1 : w1.acc = a1 :=
      ((storeState_acc_preserved cfg i { w with acc := a1 }).1 w1 h1).1
    cases hse2 : Accordion.setExpanded cfg (!(Accordion.isExpanded w1.acc i)) i w1.acc with
    | thrown m a => simp [hse2] at h2
    | ok a2 =>
      simp only [hse2] at h2
      have ha2 : w2.acc = a2 :=
        ((storeState_acc_preserved cfg i { w1 with acc := a2 }).1 w2 h2).1
      rcases setExpanded_ok_cases _ _ _ _ _ hse1 with
        ⟨hnone1, heq1⟩ | ⟨s1, hsome1, hgf1, heq1⟩ |
        ⟨s1, bt1, msg1, hsome1, hgd1, _, _, hsec1, _, _⟩
      · -- section i absent: both toggles are no-ops
        rw [heq1] at ha1
        rcases setExpanded_ok_cases _ _ _ _ _ hse2 with
          ⟨hnone2, heq2⟩ | ⟨s2, hsome2, hgf2, heq2⟩ |
          ⟨s2, bt2, msg2, hsome2, _, _, _, hsec2, _, _⟩
        · rw [heq2] at ha2
          rw [ha2, ha1]
          exact ⟨rfl, fun j _ => rfl⟩
        · rw [ha1] at hsome2
          rw [hsome2] at hnone1
          exact absurd hnone1 (by simp)
        · rw [ha1] at hsome2
          rw [hsome2] at hnone1
          exact absurd hnone1 (by simp)
      · -- guard fails: both toggles are no-ops
        rw [heq1] at ha1
        rcases setExpanded_ok_cases _ _ _ _ _ hse2 with
          ⟨hnone2, heq2⟩ | ⟨s2, hsome2, hgf2, heq2⟩ |
          ⟨s2, bt2, msg2, hsome2, hgd2, _, _, hsec2, _, _⟩
        · rw [heq2] at ha2
          rw [ha2, ha1]
          exact ⟨rfl, fun j _ => rfl⟩
        · rw [heq2] at ha2
          rw [ha2, ha1]
          exact ⟨rfl, fun j _ => rfl⟩
        · rw [ha1] at hsome2
          rw [hsome1] at hsome2
          injection hsome2 with hs12
          rw [← hs12] at hgd2
          rw [hgf1] at hgd2
          exact absurd hgd2 (by simp)
      · -- guard passes: the class flips twice
        have hlt : i < w.acc.sections.length := lt_length_of_getElem?_some _ _ _ hsome1
        have hget1 : w1.acc.sections[i]? = some
            { s1 with
              toggleText := bt1,
              ariaExpandedAttr := some (if !(Accordion.isExpanded w.acc i) then "true" else "false"),
              ariaLabel := some (String.intercalate " , "
                ((match s1.headingTextEl with
                  | some hx => [jsTrim hx]
                  | none => []) ++
                 (match s1.summaryEl with
                  | some y => [jsTrim y]
                  | none => []) ++ [msg1])),
              expandedClass := !(Accordion.isExpanded w.acc i),
              contentHidden := !(!(Accordion.isExpanded w.acc i)),
              downChevron := !(!(Accordion.isExpanded w.acc i)) } := by
          rw [ha1, hsec1]
          exact List.getElem?_set_self hlt
        rcases setExpanded_ok_cases _ _ _ _ _ hse2 with
          ⟨hnone2, heq2⟩ | ⟨s2, hsome2, hgf2, heq2⟩ |
          ⟨s2, bt2, msg2, hsome2, hgd2, _, _, hsec2, _, _⟩
        · rw [hget1] at hnone2
          exact absurd hnone2 (by simp)
        · rw [hget1] at hsome2
          injection hsome2 with hs2
          exfalso
          rw [← hs2] at hgf2
          have hgme : sectionGuard s1 = true := hgd1
          simp only [sectionGuard] at hgf2 hgme
          rw [hgme] at hgf2
          exact absurd hgf2 (by simp)
        · rw [hget1] at hsome2
          injection hsome2 with hs2
          have hlt1 : i < w1.acc.sections.length := lt_length_of_getElem?_some _ _ _ hget1
          have hget2 : a2.sections[i]? = some
              { s2 with
                toggleText := bt2,
                ariaExpandedAttr := some (if !(Accordion.isExpanded w1.acc i) then "true" else "false"),
                ariaLabel := some (String.intercalate " , "
                  ((match s2.headingTextEl with
                    | some hx => [jsTrim hx]
                    | none => []) ++
                   (match s2.summaryEl with
                    | some y => [jsTrim y]
                    | none => []) ++ [msg2])),
                expandedClass := !(Accordion.isExpanded w1.acc i),
                contentHidden := !(!(Accordion.isExpanded w1.acc i)),
                downChevron := !(!(Accordion.isExpanded w1.acc i)) } := by
            rw [hsec2]
            exact List.getElem?_set_self hlt1
          have hew : Accordion.isExpanded w.acc i = s1.expandedClass := by
            simp [Accordion.isExpanded, hsome1]
          have hew1 : Accordion.isExpanded w1.acc i = !(Accordion.isExpanded w.acc i) := by
            show (match w1.acc.sections[i]? with
                  | some s => s.expandedClass
                  | none => false) = !(Accordion.isExpanded w.acc i)
            rw [hget1]
          constructor
          · rw [ha2, hget2, hsome1]
            show some (!(Accordion.isExpanded w1.acc i)) = some s1.expandedClass
            rw [hew1, hew, Bool.not_not]
          · intro j hj
            have hji : i ≠ j := fun hij => hj hij.symm
            rw [ha2, hsec2, List.getElem?_set_ne hji, ha1, hsec1, List.getElem?_set_ne hji]

/-- Concrete double-toggle run for the C7 witness. -/
def c7w0 : World :=
  (Accordion.construct [mWit] "acc" Accordion.defaultConfig ⟨[], false⟩).extract

/-- After the first toggle of section 0. -/
def c7w1 : World :=
  (Accordion.onSectionToggle Accordion.defaultConfig 0 c7w0).extract

/-- After the second toggle of section 0. -/
def c7w2 : World :=
  (Accordion.onSectionToggle Accordion.defaultConfig 0 c7w1).extract

/-- Witness for C7 at the concrete one-section accordion. -/
theorem c7_witness :
    ((c7w2.acc.sections[0]?).map (fun s => s.expandedClass)) =
      ((c7w0.acc.sections[0]?).map (fun s => s.expandedClass)) :=
  (c7_double_toggle Accordion.defaultConfig 0 c7w0 c7w1 c7w2 (by decide) (by decide)).1

/-- A guard-passing section with a heading text element and optional
summary, as `constructHeaderMarkup` leaves it. -/
def c8Section (h : String) (sum : Option String) : Section :=
  { mWit with hasIcon := true, hasToggleText := true, headingTextEl := some h, summaryEl := sum }

/-- Three-section accordion state for the C8 scenario. -/
def c8State : AccState :=
  { sections := [c8Section "Section 1" none, c8Section "Section 2" (some "Summary 2"),
                 c8Section "Section 3" none],
    browserSupportsSessionStorage := false,
    showAllAriaExpanded := false, showAllText := "", showAllDownChevron := false }

/-- The state after expanding section 2 (index 1). -/
def c8After : AccState :=
  (Accordion.setExpanded Accordion.defaultConfig true 1 c8State).extract

/-- C8: `setExpanded` sets the section button's accessible label to the
heading text, the optional summary text, and the localized action text
(`hideSectionAriaLabel` when expanding, `showSectionAriaLabel` when
collapsing), joined by the pause separator — literally a comma surrounded
by spaces. In the three-section scenario, expanding section 2 yields
"Section 2 , Summary 2 , Hide this section". -/
theorem c8_aria_label :
    (∀ (cfg : AccordionConfig) (e : Bool) (i : Nat) (st st' : AccState) (s : Section) (msg : String),
      st.sections[i]? = some s → sectionGuard s = true →
      accT cfg (if e then "hideSectionAriaLabel" else "showSectionAriaLabel") = .ok msg →
      Accordion.setExpanded cfg e i st = .ok st' →
      ((st'.sections[i]?).map (fun x => x.ariaLabel)) =
        some (some (String.intercalate " , "
          ((match s.headingTextEl with
            | some hx => [jsTrim hx]
            | none => []) ++
           (match s.summaryEl with
            | some y => [jsTrim y]
            | none => []) ++ [msg])))) ∧
    Accordion.setExpanded Accordion.defaultConfig true 1 c8State = .ok c8After ∧
    ((c8After.sections[1]?).map (fun x => x.ariaLabel)) =
      some (some "Section 2 , Summary 2 , Hide this section") := by
  refine ⟨?_, by decide, by decide⟩
  intro cfg e i st st' s msg hs hg hmsg h
  rcases setExpanded_ok_cases cfg e i st st' h with
    ⟨hnone, _⟩ | ⟨s', hsome, hgf, _⟩ | ⟨s', bt, msg', hsome, hgd, _, hmsg', hsec, _, _⟩
  · rw [hs] at hnone
    exact absurd hnone (by simp)
  · rw [hs] at hsome
    injection hsome with hs'
    rw [← hs', hg] at hgf
    exact absurd hgf (by simp)
  · rw [hs] at hsome
    injection hsome with hs'
    subst hs'
    rw [hmsg] at hmsg'
    injection hmsg' with hmsg2
    subst hmsg2
    have hlt : i < st.sections.length := lt_length_of_getElem?_some _ _ _ hs
    rw [hsec, List.getElem?_set_self hlt]
    rfl

/-- Witness for C8: the theorem applied to the concrete three-section
scenario. -/
theorem c8_witness :
    ((c8After.sections[1]?).map (fun x => x.ariaLabel)) =
      some (some (String.intercalate " , "
        ((match (c8Section "Section 2" (some "Summary 2")).headingTextEl with
          | some hx => [jsTrim hx]
          | none => []) ++
         (match (c8Section "Section 2" (some "Summary 2")).summaryEl with
          | some y => [jsTrim y]
          | none => []) ++ ["Hide this section"]))) :=
  c8_aria_label.1 Accordion.defaultConfig true 1 c8State c8After
    (c8Section "Section 2" (some "Summary 2")) "Hide this section"
    (by decide) (by decide) (by decide) (by decide)

/-- C10: the `beforematch` handler forces the target's section open via
`setExpanded` (which recomputes the aggregate) but never touches the
session store — so a later initialisation from that store behaves exactly
as if the `beforematch` had not happened. -/
theorem c10_beforematch_never_persists (cfg : AccordionConfig) (tgt : Option Nat) (w : World) :
    (∀ (m : String) (w' : World),
      Accordion.onBeforeMatch cfg tgt w = .thrown m w' → w'.store = w.store) ∧
    (∀ w' : World, Accordion.onBeforeMatch cfg tgt w = .ok w' →
      w'.store = w.store ∧
      (∀ (markup : List Section) (mid : String) (cfg2 : AccordionConfig),
        Accordion.construct markup mid cfg2 w'.store =
          Accordion.construct markup mid cfg2 w.store) ∧
      (∀ (i : Nat) (s : Section), tgt = some i → w.acc.sections[i]? = some s →
        sectionGuard s = true →
        ((w'.acc.sections[i]?).map (fun x => x.expandedClass)) = some true ∧
        w'.acc.showAllAriaExpanded = checkIfAllSectionsOpen w'.acc)) := by
  cases tgt with
  | none =>
    constructor
    · intro m w' h
      simp [Accordion.onBeforeMatch] at h
    · intro w' h
      simp only [Accordion.onBeforeMatch, JsResult.ok.injEq] at h
      subst h
      exact ⟨rfl, fun _ _ _ => rfl, fun i s hco _ _ => absurd hco (by simp)⟩
  | some i0 =>
    constructor
    · intro m w' h
      unfold Accordion.onBeforeMatch at h
      cases hse : Accordion.setExpanded cfg true i0 w.acc with
      | thrown m2 a =>
        simp only [hse, JsResult.thrown.injEq] at h
        rw [← h.2]
      | ok a => simp [hse] at h
    · intro w' h
      unfold Accordion.onBeforeMatch at h
      cases hse : Accordion.setExpanded cfg true i0 w.acc with
      | thrown m2 a => simp [hse] at h
      | ok a =>
        simp only [hse, JsResult.ok.injEq] at h
        subst h
        refine ⟨rfl, fun _ _ _ => rfl, ?_⟩
        intro i s hco hs hg
        injection hco with hii
        subst hii
        rcases setExpanded_ok_cases _ _ _ _ _ hse with
          ⟨hnone, _⟩ | ⟨s', hsome, hgf, _⟩ | ⟨s', bt, msg, hsome, _, _, _, hsec, _, hagg⟩
        · rw [hs] at hnone
          exact absurd hnone (by simp)
        · rw [hs] at hsome
          injection hsome with hs'
          rw [← hs', hg] at hgf
          exact absurd hgf (by simp)
        · constructor
          · simp only [hsec]
            rw [List.getElem?_set_self (lt_length_of_getElem?_some _ _ _ hs)]
            rfl
          · exact hagg
  
/-- Concrete run for the C10 witness. -/
def c10w0 : World :=
  (Accordion.construct [mWit] "acc" Accordion.defaultConfig ⟨[], false⟩).extract

/-- After a `beforematch` event targeting section 0. -/
def c10w1 : World :=
  (Accordion.onBeforeMatch Accordion.defaultConfig (some 0) c10w0).extract

/-- Witness for C10: the store is untouched and the section is forced open. -/
theorem c10_witness :
    c10w1.store = c10w0.store ∧
    ((c10w1.acc.sections[0]?).map (fun x => x.expandedClass)) = some true := by
  have H := (c10_beforematch_never_persists Accordion.defaultConfig (some 0) c10w0).2 c10w1
    (by decide)
  exact ⟨H.1, (H.2.2 0 ((c10w0.acc.sections[0]?).getD mWit) rfl (by decide) (by decide)).1⟩

/-- A well-formed section whose button already carries `aria-controls` and
`aria-expanded`, inside a component whose storage probe succeeded but whose
store now throws on writes (e.g. quota exceeded after construction). -/
def c6Section : Section :=
  { mWit with hasIcon := true, hasToggleText := true,
              contentId := some "acc-content-1", ariaExpandedAttr := some "false" }

/-- The C6 counterexample world: probe flag set, store throwing. -/
def c6World : World :=
  { acc := { sections := [c6Section], browserSupportsSessionStorage := true,
             showAllAriaExpanded := false, showAllText := "", showAllDownChevron := false },
    store := { entries := [], setThrows := true } }

/-- C6 counterexample: with `rememberExpanded` true and the probe having
succeeded, a section toggle whose store write throws propagates the
exception out of `onSectionToggle` — the write is not wrapped in try/catch,
so the claimed swallowing does not happen. -/
theorem c6_counterexample :
    (Accordion.onSectionToggle Accordion.defaultConfig 0 c6World).isThrown = true := by
  decide

/-- The accordion state after the completed toggle of the C6 scenario. -/
def c6a1 : AccState :=
  (Accordion.setExpanded Accordion.defaultConfig
    (!(Accordion.isExpanded c6World.acc 0)) 0 c6World.acc).extract

/-- C6 (amended): the store write is guarded only by the construction-time
probe flag and `rememberExpanded` — with either off, `storeState` is a
silent no-op; with a non-throwing store it never raises; but when the store
write throws, the exception propagates out of `onSectionToggle`, carrying
the state of the already-completed DOM transition. -/
theorem c6_storestate_throw_propagates :
    (∀ (cfg : AccordionConfig) (i : Nat) (w : World),
      w.acc.browserSupportsSessionStorage = false ∨ cfg.rememberExpanded = false →
      Accordion.storeState cfg i w = .ok w) ∧
    (∀ (cfg : AccordionConfig) (i : Nat) (w : World),
      w.store.setThrows = false → (Accordion.storeState cfg i w).isThrown = false) ∧
    (∀ (cfg : AccordionConfig) (i : Nat) (w : World) (a1 : AccState) (m : String) (w' : World),
      Accordion.setExpanded cfg (!(Accordion.isExpanded w.acc i)) i w.acc = .ok a1 →
      Accordion.storeState cfg i { w with acc := a1 } = .thrown m w' →
      Accordion.onSectionToggle cfg i w = .thrown m w' ∧ w'.acc = a1) := by
  refine ⟨?_, ?_, ?_⟩
  · intro cfg i w h
    rcases h with hbs | hre
    · simp [Accordion.storeState, hbs]
    · simp [Accordion.storeState, hre]
  · intro cfg i w hth
    unfold Accordion.storeState
    repeat' split
    all_goals simp_all [JsResult.isThrown]
  · intro cfg i w a1 m w' hse hst
    constructor
    · unfold Accordion.onSectionToggle
      simp only [hse]
      exact hst
    · have := (storeState_acc_preserved cfg i { w with acc := a1 }).2 m w' hst
      rw [this]

/-- Witness for C6 (amended) at concrete inputs: disabled persistence is a
no-op, a non-throwing store never raises, and the concrete throwing toggle
propagates with the completed transition. -/
theorem c6_witness :
    Accordion.storeState cfgNoRemember 0 c6World = .ok c6World ∧
    (Accordion.storeState Accordion.defaultConfig 0
      { acc := c6World.acc, store := { entries := [], setThrows := false } }).isThrown = false ∧
    (Accordion.onSectionToggle Accordion.defaultConfig 0 c6World =
      .thrown "QuotaExceededError" { acc := c6a1, store := c6World.store } ∧
      ({ acc := c6a1, store := c6World.store } : World).acc = c6a1) :=
  ⟨c6_storestate_throw_propagates.1 cfgNoRemember 0 c6World (Or.inr (by decide)),
   c6_storestate_throw_propagates.2.1 Accordion.defaultConfig 0
     { acc := c6World.acc, store := { entries := [], setThrows := false } } (by decide),
   c6_storestate_throw_propagates.2.2 Accordion.defaultConfig 0 c6World c6a1
     "QuotaExceededError" { acc := c6a1, store := c6World.store } (by decide) (by decide)⟩
